import Mathlib

/-!
Verification development for the HBase data-cleaning/analysis tool
(`hbase_tools_simplified.py`).  The Python source is shallowly embedded:
pure fragments become Lean functions over `Nat`/`Int`/`ℚ`, instants are
modelled on the timeline (seconds since the Unix epoch, assuming a UTC
local clock), and the I/O skeleton of the log-analysis entry point is
modelled as an explicit trace of I/O actions.  Real (float) arithmetic in
the source is modelled exactly over `ℚ`; the comparisons the rules make
(`>= 58`, `> 5`, `* 1.1`, `* 0.3`, …) are against constants whose float
rounding cannot flip any comparison reachable from integer-valued data,
as noted at each use site.
-/

namespace HBase

/-! ### Calendar arithmetic

`datetime.strptime`, `datetime` comparison and `timedelta` arithmetic are
modelled by converting civil datetimes to a timeline coordinate in seconds
(proleptic Gregorian calendar, epoch 1970-01-01 00:00:00). -/

def isLeapYear (y : Nat) : Bool :=
  y % 4 == 0 && (y % 100 != 0 || y % 400 == 0)

def daysInMonth (y m : Nat) : Nat :=
  if m = 1 then 31
  else if m = 2 then (if isLeapYear y then 29 else 28)
  else if m = 3 then 31
  else if m = 4 then 30
  else if m = 5 then 31
  else if m = 6 then 30
  else if m = 7 then 31
  else if m = 8 then 31
  else if m = 9 then 30
  else if m = 10 then 31
  else if m = 11 then 30
  else 31

/-- A civil datetime as produced by `datetime.strptime(s, "%Y-%m-%d %H:%M:%S")`:
field ranges are those accepted by the `datetime` constructor. -/
structure DateTime where
  year : Nat
  month : Nat
  day : Nat
  hour : Nat
  minute : Nat
  second : Nat
deriving DecidableEq, Repr

/-- Days since 1970-01-01 of a civil date (Howard Hinnant's `days_from_civil`,
restricted to years ≥ 1, where all intermediate quantities are naturals). -/
def daysFromCivil (y m d : Nat) : Int :=
  let y' : Nat := if m ≤ 2 then y - 1 else y
  let era : Nat := y' / 400
  let yoe : Nat := y' - era * 400
  let mp : Nat := if m > 2 then m - 3 else m + 9
  let doy : Nat := (153 * mp + 2) / 5 + d - 1
  let doe : Nat := yoe * 365 + yoe / 4 - yoe / 100 + doy
  (era * 146097 + doe : Int) - 719468

/-- Timeline coordinate in seconds of a civil datetime (UTC local clock).
`datetime` comparison and subtraction agree with comparison and
subtraction of these coordinates. -/
def toSecs (dt : DateTime) : Int :=
  daysFromCivil dt.year dt.month dt.day * 86400
    + dt.hour * 3600 + dt.minute * 60 + dt.second

/-- Civil date of an epoch day number (Howard Hinnant's `civil_from_days`). -/
def civilFromDays (z : Int) : Nat × Nat × Nat :=
  let z' := z + 719468
  let era := z'.ediv 146097
  let doe := (z' - era * 146097).toNat
  let yoe := (doe - doe / 1460 + doe / 36524 - doe / 146096) / 365
  let doy := doe - (365 * yoe + yoe / 4 - yoe / 100)
  let mp := (5 * doy + 2) / 153
  let d := doy - (153 * mp + 2) / 5 + 1
  let m := if mp < 10 then mp + 3 else mp - 9
  let y := (era * 400 + yoe + (if m ≤ 2 then 1 else 0)).toNat
  (y, m, d)

/-! ### `strptime` for the format `"%Y-%m-%d %H:%M:%S"`

CPython compiles the format to the regex
`\d\d\d\d - (1[0-2]|0[1-9]|[1-9]) - (3[01]|[12]\d|0[1-9]|[1-9]) ␣
 (2[0-3]|[0-1]\d|\d) : ([0-5]\d|\d) : (6[0-1]|[0-5]\d|\d)`,
matches it as a prefix, raises if unconverted data remains, and then the
`datetime` constructor validates year ≥ 1, day ≤ days-in-month and
second ≤ 59.  Each numeric field is parsed two-digits-first with
backtracking into the one-digit alternative, which is what the regex
alternation order produces. -/

def digitVal (c : Char) : Nat := c.toNat - 48

def parse4Digits (cs : List Char) (k : Nat → List Char → Option DateTime) :
    Option DateTime :=
  match cs with
  | c1 :: c2 :: c3 :: c4 :: rest =>
    if c1.isDigit && c2.isDigit && c3.isDigit && c4.isDigit then
      k (digitVal c1 * 1000 + digitVal c2 * 100 + digitVal c3 * 10 + digitVal c4) rest
    else none
  | _ => none

def parse2or1 (twoLo twoHi oneLo oneHi : Nat) (cs : List Char)
    (k : Nat → List Char → Option DateTime) : Option DateTime :=
  let try2 : Option DateTime :=
    match cs with
    | c1 :: c2 :: rest =>
      if c1.isDigit && c2.isDigit then
        let v := digitVal c1 * 10 + digitVal c2
        if twoLo ≤ v && v ≤ twoHi then k v rest else none
      else none
    | _ => none
  match try2 with
  | some r => some r
  | none =>
    match cs with
    | c1 :: rest =>
      if c1.isDigit then
        let v := digitVal c1
        if oneLo ≤ v && v ≤ oneHi then k v rest else none
      else none
    | _ => none

def expectChar (c : Char) (cs : List Char) (k : List Char → Option DateTime) :
    Option DateTime :=
  match cs with
  | c' :: rest => if c' = c then k rest else none
  | [] => none

/-- The character class of Python's `\s` (和 `str.strip()`), ASCII part. -/
def isPySpace (c : Char) : Bool :=
  c = ' ' || c = '\t' || c = '\n' || c = '\r' || c = '\x0b' || c = '\x0c'

/-- CPython's `_strptime` compiles a whitespace run in the format to `\s+`:
one or more whitespace characters are consumed. -/
def expectSpaces (cs : List Char) (k : List Char → Option DateTime) :
    Option DateTime :=
  match cs with
  | c :: rest => if isPySpace c then k (rest.dropWhile isPySpace) else none
  | [] => none

/-- `datetime.strptime(s, "%Y-%m-%d %H:%M:%S")`, `none` on `ValueError`. -/
def strptimeYmdHMS (s : String) : Option DateTime :=
  parse4Digits s.toList fun y cs =>
  expectChar '-' cs fun cs =>
  parse2or1 1 12 1 9 cs fun mo cs =>
  expectChar '-' cs fun cs =>
  parse2or1 1 31 1 9 cs fun d cs =>
  expectSpaces cs fun cs =>
  parse2or1 0 23 0 9 cs fun h cs =>
  expectChar ':' cs fun cs =>
  parse2or1 0 59 0 9 cs fun mi cs =>
  expectChar ':' cs fun cs =>
  parse2or1 0 61 0 9 cs fun sec cs =>
  match cs with
  | [] =>
    -- "unconverted data remains" needs the whole string consumed; the
    -- datetime constructor then validates the field ranges.
    if 1 ≤ y && d ≤ daysInMonth y mo && sec ≤ 59 then
      some ⟨y, mo, d, h, mi, sec⟩
    else none
  | _ => none

/-! ### Strings and regex-like matchers

Each `re` pattern of the source is implemented directly, following
`re.search` semantics: the leftmost starting position where the pattern
matches wins, greedy `\d+`/character-class runs are maximal runs (a
shorter run would have to be followed by another run character, so the
required literal after it could never match, i.e. backtracking inside a
run never succeeds). -/

def liStartsWith : List Char → List Char → Bool
  | [], _ => true
  | _ :: _, [] => false
  | a :: as, b :: bs => a = b && liStartsWith as bs

def liContains (needle : List Char) : List Char → Bool
  | [] => needle.isEmpty
  | c :: t => liStartsWith needle (c :: t) || liContains needle t

/-- Python's `needle in s` substring test. -/
def containsSubstr (needle s : String) : Bool :=
  liContains needle.toList s.toList

/-- ASCII lower-casing of one character. -/
def charLower (c : Char) : Char :=
  if 'A' ≤ c && c ≤ 'Z' then Char.ofNat (c.toNat + 32) else c

/-- Python's `str.lower()` (ASCII range, all the source's patterns are ASCII). -/
def pyLower (s : String) : String := String.mk (s.toList.map charLower)

/-- Python's `str.strip()`. -/
def pyStrip (s : String) : String :=
  let l := s.toList.dropWhile isPySpace
  String.mk (l.reverse.dropWhile isPySpace).reverse

def pyReplaceGo (old new : List Char) : List Char → List Char
  | [] => []
  | c :: t =>
    if liStartsWith old (c :: t) && !old.isEmpty then
      new ++ pyReplaceGo old new (t.drop (old.length - 1))
    else c :: pyReplaceGo old new t
termination_by cs => cs.length
decreasing_by
  · simp only [List.length_cons, List.length_drop]
    omega
  · simp only [List.length_cons]
    omega

/-- Python's `str.replace(old, new)` (all occurrences, left to right). -/
def pyReplace (s old new : String) : String :=
  String.mk (pyReplaceGo old.toList new.toList s.toList)

/-- Python's `os.path.basename` (the part after the last `/`). -/
def basename (p : String) : String :=
  String.mk ((p.toList.reverse.takeWhile (fun c => c ≠ '/')).reverse)

/-- `str.endswith(suffix)`. -/
def strEndsWith (s suffix : String) : Bool :=
  liStartsWith suffix.toList.reverse s.toList.reverse

/-- First suffix position (leftmost, `re.search` order) where `f` matches. -/
def scanFirst (f : List Char → Option α) : List Char → Option α
  | [] => f []
  | c :: cs =>
    match f (c :: cs) with
    | some r => some r
    | none => scanFirst f cs

/-- Last suffix position where `f` matches (for a greedy `.*` before `f`). -/
def scanLast (f : List Char → Option α) : List Char → Option α
  | [] => f []
  | c :: cs =>
    match scanLast f cs with
    | some r => some r
    | none => f (c :: cs)

/-- Maximal run of characters satisfying `p`, and the rest. -/
def takeRun (p : Char → Bool) (cs : List Char) : List Char × List Char :=
  (cs.takeWhile p, cs.dropWhile p)

def digitsToNat (ds : List Char) : Nat :=
  ds.foldl (fun n c => n * 10 + digitVal c) 0

/-- `re.search(lit ++ "(\d+)", s)`: digits immediately after the literal. -/
def searchLitNum (lit : String) (s : String) : Option Nat :=
  scanFirst
    (fun cs =>
      if liStartsWith lit.toList cs then
        let (ds, _) := takeRun Char.isDigit (cs.drop lit.length)
        if ds.isEmpty then none else some (digitsToNat ds)
      else none)
    s.toList

/-- `re.search(lit ++ "(\d+)" ++ suffix, s)`: digits immediately after the
literal, immediately followed by the literal suffix. -/
def searchLitNumSuffix (lit suffix : String) (s : String) : Option Nat :=
  scanFirst
    (fun cs =>
      if liStartsWith lit.toList cs then
        let (ds, rest) := takeRun Char.isDigit (cs.drop lit.length)
        if !ds.isEmpty && liStartsWith suffix.toList rest then
          some (digitsToNat ds)
        else none
      else none)
    s.toList

/-- `re.search(lit ++ ".*?(\d+)" ++ suffix, s)`: non-greedy gap, so the
first digit run after the first literal occurrence that is followed by
the suffix. -/
def searchLitGapNumSuffix (lit suffix : String) (s : String) : Option Nat :=
  scanFirst
    (fun cs =>
      if liStartsWith lit.toList cs then
        scanFirst
          (fun cs' =>
            let (ds, rest) := takeRun Char.isDigit cs'
            if !ds.isEmpty && liStartsWith suffix.toList rest then
              some (digitsToNat ds)
            else none)
          (cs.drop lit.length)
      else none)
    s.toList

/-- `re.search("WAL.*size=(\d+)", s)`: greedy gap, so the digits after the
last `size=` occurrence following the first `WAL` occurrence. -/
def searchWalSize (s : String) : Option Nat :=
  scanFirst
    (fun cs =>
      if liStartsWith "WAL".toList cs then
        scanLast
          (fun cs' =>
            if liStartsWith "size=".toList cs' then
              let (ds, _) := takeRun Char.isDigit (cs'.drop 5)
              if ds.isEmpty then none else some (digitsToNat ds)
            else none)
          (cs.drop 3)
      else none)
    s.toList

/-- `re.search("heap.*?(\d+)M/(\d+)M", s)`. -/
def searchHeap (s : String) : Option (Nat × Nat) :=
  scanFirst
    (fun cs =>
      if liStartsWith "heap".toList cs then
        scanFirst
          (fun cs' =>
            let (ds1, r1) := takeRun Char.isDigit cs'
            if !ds1.isEmpty && liStartsWith "M/".toList r1 then
              let (ds2, r2) := takeRun Char.isDigit (r1.drop 2)
              if !ds2.isEmpty && liStartsWith "M".toList r2 then
                some (digitsToNat ds1, digitsToNat ds2)
              else none
            else none)
          (cs.drop 4)
      else none)
    s.toList

/-- `re.search("connection: ([\d\.]+):\d+", s)`.  The character-class run
is maximal (a shorter run is followed by a digit or dot, never `:`). -/
def searchClientIp (s : String) : Option String :=
  scanFirst
    (fun cs =>
      if liStartsWith "connection: ".toList cs then
        let rest := cs.drop 12
        let (run, tail) := takeRun (fun c => c.isDigit || c = '.') rest
        if !run.isEmpty then
          match tail with
          | ':' :: d :: _ => if d.isDigit then some (String.mk run) else none
          | _ => none
        else none
      else none)
    s.toList

/-- `re.search("table=([^,\s]+)", s)`. -/
def searchTableName (s : String) : Option String :=
  scanFirst
    (fun cs =>
      if liStartsWith "table=".toList cs then
        let (run, _) := takeRun (fun c => !(c = ',' || isPySpace c)) (cs.drop 6)
        if run.isEmpty then none else some (String.mk run)
      else none)
    s.toList

/-- `re.search("ip-\d+-\d+-\d+-\d+", name)`, returning the matched text. -/
def searchIpNode (s : String) : Option String :=
  scanFirst
    (fun cs =>
      if liStartsWith "ip-".toList cs then
        let (d1, r1) := takeRun Char.isDigit (cs.drop 3)
        if d1.isEmpty then none else
        match r1 with
        | '-' :: r1' =>
          let (d2, r2) := takeRun Char.isDigit r1'
          if d2.isEmpty then none else
          match r2 with
          | '-' :: r2' =>
            let (d3, r3) := takeRun Char.isDigit r2'
            if d3.isEmpty then none else
            match r3 with
            | '-' :: r3' =>
              let (d4, _) := takeRun Char.isDigit r3'
              if d4.isEmpty then none else
              some ("ip-" ++ String.mk d1 ++ "-" ++ String.mk d2 ++ "-"
                ++ String.mk d3 ++ "-" ++ String.mk d4)
            | _ => none
          | _ => none
        | _ => none
      else none)
    s.toList

/-- `re.search("\d{4}-\d{2}-\d{2}-\d{2}", name) is not None` (date-hour
pattern in a rotated-file name); exact digit counts, no run maximality. -/
def hasDateHourPattern (s : String) : Bool :=
  (scanFirst
    (fun cs =>
      match cs with
      | a1 :: a2 :: a3 :: a4 :: h1 :: b1 :: b2 :: h2 :: c1 :: c2 :: h3 :: e1 :: e2 :: _ =>
        if a1.isDigit && a2.isDigit && a3.isDigit && a4.isDigit && h1 = '-'
            && b1.isDigit && b2.isDigit && h2 = '-' && c1.isDigit && c2.isDigit
            && h3 = '-' && e1.isDigit && e2.isDigit then
          some ()
        else none
      | _ => none)
    s.toList).isSome

/-- `re.search("\d{4}-\d{2}-\d{2}", name) is not None`. -/
def hasDatePattern (s : String) : Bool :=
  (scanFirst
    (fun cs =>
      match cs with
      | a1 :: a2 :: a3 :: a4 :: h1 :: b1 :: b2 :: h2 :: c1 :: c2 :: _ =>
        if a1.isDigit && a2.isDigit && a3.isDigit && a4.isDigit && h1 = '-'
            && b1.isDigit && b2.isDigit && h2 = '-' && c1.isDigit && c2.isDigit then
          some ()
        else none
      | _ => none)
    s.toList).isSome

/-- `re.search("(\d{4}-\d{2}-\d{2} \d{2}:\d{2}:\d{2}),\d{3}", line)`,
returning group 1 (the source's per-line timestamp extraction regex). -/
def searchTimestampGroup (s : String) : Option String :=
  scanFirst
    (fun cs =>
      match cs with
      | a1 :: a2 :: a3 :: a4 :: h1 :: b1 :: b2 :: h2 :: c1 :: c2 :: sp
          :: d1 :: d2 :: h3 :: e1 :: e2 :: h4 :: f1 :: f2 :: cm :: g1 :: g2 :: g3 :: _ =>
        if a1.isDigit && a2.isDigit && a3.isDigit && a4.isDigit && h1 = '-'
            && b1.isDigit && b2.isDigit && h2 = '-' && c1.isDigit && c2.isDigit
            && sp = ' ' && d1.isDigit && d2.isDigit && h3 = ':'
            && e1.isDigit && e2.isDigit && h4 = ':' && f1.isDigit && f2.isDigit
            && cm = ',' && g1.isDigit && g2.isDigit && g3.isDigit then
          some (String.mk [a1, a2, a3, a4, h1, b1, b2, h2, c1, c2, sp,
            d1, d2, h3, e1, e2, h4, f1, f2])
        else none
      | _ => none)
    s.toList

/-! ### Time-window resolver (`_parse_time_window`)

A resolved window is kept as timeline coordinates (seconds); the source
additionally carries the same instants formatted back to strings, which
are derived data and omitted here.  A supplied-but-empty string is falsy
in Python exactly like `None`; `Option` models supplied-vs-not. -/

structure TimeWindow where
  start : Int
  endT : Int
deriving DecidableEq

def parse_time_window (startTime endTime : Option String) (now : Int) :
    Except Unit TimeWindow :=
  match startTime, endTime with
  | some s, some e =>
    -- both given: used as-is, start parsed first (strptime raises on failure)
    (match strptimeYmdHMS s with
     | none => .error ()
     | some sd =>
       match strptimeYmdHMS e with
       | none => .error ()
       | some ed => .ok ⟨toSecs sd, toSecs ed⟩)
  | some s, none =>
    -- only start given: end = start + timedelta(hours=1)
    (match strptimeYmdHMS s with
     | none => .error ()
     | some sd => .ok ⟨toSecs sd, toSecs sd + 3600⟩)
  | none, _ =>
    -- neither (or only end) given: end = now, start = now - 1 hour;
    -- note a sole end_time never reaches strptime in the source
    .ok ⟨now - 3600, now⟩

/-! ### File catalog and selector -/

/-- A file system as seen by `os.walk`: the walked files in enumeration
order, each with its path and its decoded lines. -/
abbrev FileSys := List (String × List String)

/-- `_discover_log_files`: keep files whose name ends in a log extension or
embeds a date-hour pattern. -/
def discover_log_files (fs : FileSys) : FileSys :=
  fs.filter (fun f =>
    let file := basename f.1
    strEndsWith file ".log" || strEndsWith file ".out" || strEndsWith file ".gz"
      || hasDateHourPattern file)

/-- `_extract_node_name`. -/
def extract_node_name (p : String) : String :=
  let filename := basename p
  match searchIpNode filename with
  | some ip => ip
  | none => pyReplace (pyReplace filename ".log" "") ".out" ""

def pad2 (n : Nat) : String := if n < 10 then "0" ++ toString n else toString n

def pad4 (n : Nat) : String :=
  if n < 10 then "000" ++ toString n
  else if n < 100 then "00" ++ toString n
  else if n < 1000 then "0" ++ toString n
  else toString n

/-- `date.strftime("%Y-%m-%d")` of an epoch day number. -/
def dateStrOfDays (z : Int) : String :=
  let c := civilFromDays z
  pad4 c.1 ++ "-" ++ pad2 c.2.1 ++ "-" ++ pad2 c.2.2

/-- `_extract_target_dates`: the calendar dates spanned by the window,
inclusive by day.  The source steps one calendar day at a time from
`start.date()` while ≤ `end.date()`; the same sequence is enumerated here
by epoch day number. -/
def extract_target_dates (w : TimeWindow) : List String :=
  let sd := w.start.ediv 86400
  let ed := w.endT.ediv 86400
  (List.range (ed - sd + 1).toNat).map (fun i => dateStrOfDays (sd + i))

/-- `_is_file_relevant_for_dates`. -/
def is_file_relevant_for_dates (path : String) (targetDates : List String) : Bool :=
  let filename := basename path
  if targetDates.any (fun ds => containsSubstr ds filename) then true
  else if strEndsWith filename ".log" && !hasDatePattern filename then true
  else if strEndsWith filename ".out" then
    targetDates.any (fun ds => containsSubstr ds filename)
  else false

/-- `_filter_relevant_files`; an empty allowlist is falsy in Python, hence
no node filtering. -/
def filter_relevant_files (files : FileSys) (w : TimeWindow)
    (targetNodes : Option (List String)) : FileSys :=
  let targetDates := extract_target_dates w
  let dateFiltered := files.filter (fun f => is_file_relevant_for_dates f.1 targetDates)
  match targetNodes with
  | some tns =>
    if tns.isEmpty then dateFiltered
    else dateFiltered.filter (fun f => tns.contains (extract_node_name f.1))
  | none => dateFiltered

/-! ### Error classifier (`_classify_error`) -/

def classify_error (line : String) : String :=
  let lower := pyLower line
  if containsSubstr "timed out" line || containsSubstr "timeout" lower then "timeout"
  else if containsSubstr "outofmemoryerror" lower
      || containsSubstr "out of memory" lower then "memory"
  else if containsSubstr "connection" lower || containsSubstr "socket" lower
      || containsSubstr "network" lower then "network"
  else if containsSubstr "ioexception" lower || containsSubstr "disk" lower
      || containsSubstr "file" lower then "io"
  else if containsSubstr "permission" lower || containsSubstr "access denied" lower
      || containsSubstr "unauthorized" lower then "permission"
  else if containsSubstr "configuration" lower || containsSubstr "config" lower
      || containsSubstr "property" lower then "configuration"
  else if containsSubstr "corrupt" lower || containsSubstr "checksum" lower
      || containsSubstr "data" lower then "data"
  else if containsSubstr "resource" lower || containsSubstr "quota" lower
      || containsSubstr "limit" lower then "resource"
  else if containsSubstr "FATAL" line then "fatal"
  else if containsSubstr "ERROR" line then "error"
  else if containsSubstr "WARN" line then "warning"
  else if containsSubstr "Exception" line then "exception"
  else "unknown"

/-! ### Log line parser (`_parse_log_line`) -/

/-- A parsed event record; fields other than `type`, `timestamp`, `node`
and `line` are present only for the event kinds that set them (the source
uses per-kind dict keys).  The anomaly `description` strings of the
aggregation stage are presentational reformattings of these fields and
are not modelled. -/
structure Event where
  type : String
  timestamp : DateTime
  node : String
  value : Option Nat := none
  used : Option Nat := none
  total : Option Nat := none
  table : Option String := none
  client_ip : Option String := none
  line : String
deriving DecidableEq

structure ErrorRec where
  timestamp : DateTime
  node : String
  type : String
  line : String
deriving DecidableEq

/-- `if not focus_areas or topic in focus_areas`: `None` and the empty
list are both falsy. -/
def topicEnabled (fa : Option (List String)) (t : String) : Bool :=
  match fa with
  | none => true
  | some l => l.isEmpty || l.contains t

/-- Base event record (type, timestamp, node, evidence line). -/
def mkEv (ty : String) (ts : DateTime) (node : String) (st : String) : Event :=
  { type := ty, timestamp := ts, node := node, line := st }

/-- A value-extracting detector fires one event when its pattern matches. -/
def optEv (o : Option α) (f : α → Event) : List Event :=
  match o with
  | some n => [f n]
  | none => []

/-- A substring detector fires one event when its trigger holds. -/
def iteEv (c : Bool) (e : Event) : List Event :=
  if c then [e] else []

/-- The `handler` detector block of `_parse_log_line`. -/
def handlerEvents (line : String) (t : DateTime) (node : String) : List Event :=
  optEv (searchLitNum "handler=" line)
    (fun n => { mkEv "handler_usage" t node (pyStrip line) with value := some n })

/-- The `wal` detector block: slow sync, rolling, size, in append order. -/
def walEvents (line : String) (t : DateTime) (node : String) : List Event :=
  (optEv (searchLitNumSuffix "Slow sync cost: " " ms" line) (fun n => { mkEv "wal_slow_sync" t node (pyStrip line) with value := some n }))
  ++ (iteEv (containsSubstr "Rolling" line && containsSubstr "WAL" line) (mkEv "wal_rolling" t node (pyStrip line)))
  ++ (optEv (searchWalSize line) (fun n => { mkEv "wal_size" t node (pyStrip line) with value := some n }))

/-- The `gc` detector block. -/
def gcEvents (line : String) (t : DateTime) (node : String) : List Event :=
  (optEv (searchLitNumSuffix "GC pause " "ms" line) (fun n => { mkEv "gc_pause" t node (pyStrip line) with value := some n }))
  ++ (iteEv (containsSubstr "GC" line && (containsSubstr "ParNew" line || containsSubstr "CMS" line || containsSubstr "G1" line || containsSubstr "Full GC" line)) (mkEv "gc_event" t node (pyStrip line)))

/-- The `memory` detector block. -/
def memoryEvents (line : String) (t : DateTime) (node : String) : List Event :=
  (optEv (searchHeap line)
    (fun p => { mkEv "heap_usage" t node (pyStrip line) with used := some p.1, total := some p.2 }))
  ++ (iteEv (containsSubstr "OutOfMemoryError" line || containsSubstr "low memory" (pyLower line)) (mkEv "memory_warning" t node (pyStrip line)))

/-- The `compaction` detector block. -/
def compactionEvents (line : String) (t : DateTime) (node : String) : List Event :=
  (iteEv (containsSubstr "Starting compaction" line) (mkEv "compaction_start" t node (pyStrip line)))
  ++ (optEv (searchLitGapNumSuffix "Completed compaction" "ms" line) (fun n => { mkEv "compaction_complete" t node (pyStrip line) with value := some n }))
  ++ (iteEv (containsSubstr "major compaction" (pyLower line)) (mkEv "major_compaction" t node (pyStrip line)))

/-- The `split` detector block. -/
def splitEvents (line : String) (t : DateTime) (node : String) : List Event :=
  (iteEv (containsSubstr "Splitting" line && containsSubstr "region" (pyLower line)) (mkEv "region_split" t node (pyStrip line)))
  ++ (iteEv (containsSubstr "Split" line && containsSubstr "completed" (pyLower line)) (mkEv "split_complete" t node (pyStrip line)))

/-- The `flush` detector block. -/
def flushEvents (line : String) (t : DateTime) (node : String) : List Event :=
  (iteEv (containsSubstr "Flushing" line) (mkEv "flush_start" t node (pyStrip line)))
  ++ (optEv (searchLitGapNumSuffix "Flushed" "ms" line) (fun n => { mkEv "flush_complete" t node (pyStrip line) with value := some n }))

/-- The `queue` detector block. -/
def queueEvents (line : String) (t : DateTime) (node : String) : List Event :=
  (optEv (searchLitNum "queue=" line) (fun n => { mkEv "queue_size" t node (pyStrip line) with value := some n }))
  ++ (iteEv (containsSubstr "queue full" (pyLower line) || containsSubstr "queue overflow" (pyLower line)) (mkEv "queue_full" t node (pyStrip line)))

/-- The `network` detector block. -/
def networkEvents (line : String) (t : DateTime) (node : String) : List Event :=
  (iteEv (containsSubstr "SocketTimeoutException" line || containsSubstr "Connection timeout" line) (mkEv "network_timeout" t node (pyStrip line)))
  ++ (iteEv (containsSubstr "Connection reset" line || containsSubstr "Connection refused" line) (mkEv "connection_reset" t node (pyStrip line)))

/-- The `table` detector block. -/
def tableEvents (line : String) (t : DateTime) (node : String) : List Event :=
  (iteEv (containsSubstr "Creating table" line) (mkEv "table_create" t node (pyStrip line)))
  ++ (iteEv (containsSubstr "Deleting table" line) (mkEv "table_delete" t node (pyStrip line)))
  ++ (optEv (searchTableName line) (fun tn => { mkEv "table_access" t node (pyStrip line) with table := some tn }))

/-- The `balancer` detector block. -/
def balancerEvents (line : String) (t : DateTime) (node : String) : List Event :=
  (iteEv (containsSubstr "Balancer" line && containsSubstr "start" (pyLower line)) (mkEv "balancer_start" t node (pyStrip line)))
  ++ (iteEv (containsSubstr "Moving region" line) (mkEv "region_move" t node (pyStrip line)))

/-- The `errors` detector block. -/
def errorRecords (line : String) (t : DateTime) (node : String) : List ErrorRec :=
  if containsSubstr "ERROR" line || containsSubstr "Exception" line
      || containsSubstr "timed out" line || containsSubstr "FATAL" line
      || containsSubstr "WARN" line then
    [{ timestamp := t, node := node, type := classify_error line, line := pyStrip line }]
  else []

/-- The `clients` detector block. -/
def clientEvents (line : String) (t : DateTime) (node : String) : List Event :=
  (optEv (searchClientIp line) (fun ip => { mkEv "client_connection" t node (pyStrip line) with client_ip := some ip }))
  ++ (iteEv (containsSubstr "client disconnect" (pyLower line) || containsSubstr "connection closed" (pyLower line)) (mkEv "client_disconnect" t node (pyStrip line)))

/-- The `performance` detector block. -/
def performanceEvents (line : String) (t : DateTime) (node : String) : List Event :=
  (optEv (searchLitGapNumSuffix "Slow query" "ms" line) (fun n => { mkEv "slow_query" t node (pyStrip line) with value := some n }))
  ++ (optEv (searchLitGapNumSuffix "response time" "ms" line) (fun n => { mkEv "response_time" t node (pyStrip line) with value := some n }))

/-- `_parse_log_line`: every enabled detector block appends its events to
the shared event list (and the `errors` block to the error list), so the
produced events are the blocks' outputs concatenated in the source's
append order. -/
def parse_log_line (line : String) (logTime : DateTime) (node : String)
    (fa : Option (List String)) : List Event × List ErrorRec :=
  ((if topicEnabled fa "handler" then handlerEvents line logTime node else [])
    ++ (if topicEnabled fa "wal" then walEvents line logTime node else [])
    ++ (if topicEnabled fa "gc" then gcEvents line logTime node else [])
    ++ (if topicEnabled fa "memory" then memoryEvents line logTime node else [])
    ++ (if topicEnabled fa "compaction" then compactionEvents line logTime node else [])
    ++ (if topicEnabled fa "split" then splitEvents line logTime node else [])
    ++ (if topicEnabled fa "flush" then flushEvents line logTime node else [])
    ++ (if topicEnabled fa "queue" then queueEvents line logTime node else [])
    ++ (if topicEnabled fa "network" then networkEvents line logTime node else [])
    ++ (if topicEnabled fa "table" then tableEvents line logTime node else [])
    ++ (if topicEnabled fa "balancer" then balancerEvents line logTime node else [])
    ++ (if topicEnabled fa "clients" then clientEvents line logTime node else [])
    ++ (if topicEnabled fa "performance" then performanceEvents line logTime node else []),
   if topicEnabled fa "errors" then errorRecords line logTime node else [])

/-! ### Log file parsing (`_parse_log_files`) -/

structure LogData where
  total_entries : Nat
  events : List Event
  errors : List ErrorRec
  nodes : List String
deriving DecidableEq

/-- The timestamp a line carries: first regex match, then `strptime` on
group 1; a regex match whose group fails `strptime` skips the line (the
source's bare `except: continue`), later matches are not tried. -/
def extract_line_time (line : String) : Option DateTime :=
  match searchTimestampGroup line with
  | some g => strptimeYmdHMS g
  | none => none

/-- Set insertion; the source keeps nodes in a Python `set` whose
iteration order is unspecified, but only its size reaches the result
document, so first-insertion order is fixed here. -/
def addNode (nodes : List String) (n : String) : List String :=
  if nodes.contains n then nodes else nodes ++ [n]

/-- The per-line body of the `_parse_log_files` loop: extract a timestamp,
drop the line unless `start ≤ t ≤ end`, else count it and run the
detectors. -/
def parse_file_line (w : TimeWindow) (node : String) (fa : Option (List String))
    (ld : LogData) (line : String) : LogData :=
  match extract_line_time line with
  | none => ld
  | some dt =>
    if w.start ≤ toSecs dt && toSecs dt ≤ w.endT then
      let r := parse_log_line line dt node fa
      { ld with total_entries := ld.total_entries + 1,
                events := ld.events ++ r.1, errors := ld.errors ++ r.2 }
    else ld

/-- The per-file body of the `_parse_log_files` loop: derive the node
name, add it to the node set, then stream the file's lines. -/
def parse_files_step (w : TimeWindow) (fa : Option (List String))
    (ld : LogData) (f : String × List String) : LogData :=
  let node := extract_node_name f.1
  let ld := { ld with nodes := addNode ld.nodes node }
  f.2.foldl (parse_file_line w node fa) ld

def parse_log_files (files : FileSys) (w : TimeWindow)
    (fa : Option (List String)) : LogData :=
  files.foldl (parse_files_step w fa) ⟨0, [], [], []⟩

/-! ### Log aggregation and anomaly detection (`_analyze_parsed_logs`) -/

/-- `max(values)` of a nonempty Python list (call sites guard emptiness). -/
def listMaxNat : List Nat → Nat
  | [] => 0
  | v :: t => t.foldl max v

/-- `statistics.mean`, exactly over ℚ. -/
def ratMean (l : List ℚ) : ℚ := l.sum / l.length

def natMean (l : List Nat) : ℚ := ratMean (l.map (fun n => (n : ℚ)))

/-- `handler_stats[node].append(value)` with dict insertion order. -/
def addToGroup (groups : List (String × List Nat)) (node : String) (v : Nat) :
    List (String × List Nat) :=
  match groups with
  | [] => [(node, [v])]
  | (n, vs) :: rest =>
    if n = node then (n, vs ++ [v]) :: rest
    else (n, vs) :: addToGroup rest node v

/-- Grouping of `handler_usage` events by node (a `handler_usage` event
always carries a value; `getD` mirrors the source's direct key access). -/
def handlerStats (events : List Event) : List (String × List Nat) :=
  (events.filter (fun e => e.type = "handler_usage")).foldl
    (fun g e => addToGroup g e.node (e.value.getD 0)) []

inductive LogAnomaly where
  | handler_saturation (node : String) (severity : String) (max_value : Nat)
      (avg_value : ℚ)
  | high_error_rate (severity : String) (error_count : Nat) (error_rate : ℚ)
deriving DecidableEq

structure WalPerfIssue where
  type : String
  severity : String
  slow_sync_count : Nat
  avg_sync_time : ℚ
deriving DecidableEq

/-- The handler-saturation loop of `_analyze_parsed_logs`. -/
def handlerAnomalies (hs : List (String × List Nat)) : List LogAnomaly :=
  hs.foldl
    (fun acc nv =>
      if !nv.2.isEmpty then
        let maxH := listMaxNat nv.2
        if 58 ≤ maxH then
          acc ++ [.handler_saturation nv.1 (if 60 ≤ maxH then "critical" else "high")
            maxH (natMean nv.2)]
        else acc
      else acc)
    []

/-- The error rate the source computes:
`len(errors) / total_entries * 100 if total_entries > 0 else 0`. -/
def errRate (ld : LogData) : ℚ :=
  if 0 < ld.total_entries then (ld.errors.length : ℚ) / (ld.total_entries : ℚ) * 100 else 0

/-- The error-rate block of `_analyze_parsed_logs`: rate =
`len(errors) / total_entries * 100` when `total_entries > 0` else 0,
anomaly appended when the rate exceeds 5. -/
def errorRateAnomalies (ld : LogData) : List LogAnomaly :=
  if !ld.errors.isEmpty then
    if 5 < errRate ld then [.high_error_rate "high" ld.errors.length (errRate ld)]
    else []
  else []

/-- The WAL slow-sync block: a `wal_performance` issue when the mean slow
sync time exceeds 100 ms. -/
def walPerformanceIssues (events : List Event) : List WalPerfIssue :=
  let walEvents := events.filter (fun e => e.type = "wal_slow_sync")
  if !walEvents.isEmpty then
    let avg := natMean (walEvents.map (fun e => e.value.getD 0))
    if 100 < avg then
      [{ type := "wal_performance", severity := "high",
           slow_sync_count := walEvents.length, avg_sync_time := avg }]
    else []
  else []

/-! ### Summaries (`_summarize_events`, `_summarize_errors`) -/

def incAssoc (l : List (String × Nat)) (k : String) : List (String × Nat) :=
  match l with
  | [] => [(k, 1)]
  | (k', n) :: rest =>
    if k' = k then (k', n + 1) :: rest else (k', n) :: incAssoc rest k

def incAssoc2 (l : List (String × List (String × Nat))) (outer inner : String) :
    List (String × List (String × Nat)) :=
  match l with
  | [] => [(outer, [(inner, 1)])]
  | (k', m) :: rest =>
    if k' = outer then (k', incAssoc m inner) :: rest
    else (k', m) :: incAssoc2 rest outer inner

/-- Stable descending insertion by count: `sorted(items, key=count,
reverse=True)` is stable, equal counts keep dict insertion order. -/
def insertDescByCount (x : String × Nat) : List (String × Nat) → List (String × Nat)
  | [] => [x]
  | y :: ys => if x.2 ≤ y.2 then y :: insertDescByCount x ys else x :: y :: ys

def sortDescByCount (l : List (String × Nat)) : List (String × Nat) :=
  l.foldl (fun acc x => insertDescByCount x acc) []

structure EventsSummary where
  total : Nat
  types : List (String × Nat)
  by_node : List (String × List (String × Nat))
  time_distribution : List (String × Nat)
  top_event_types : List (String × Nat)
deriving DecidableEq

/-- `_summarize_events`.  With no events the source returns a two-key
dict; modelled with the remaining fields empty (the shapes can differ
only between runs whose event multisets differ). -/
def summarize_events (events : List Event) : EventsSummary :=
  if events.isEmpty then ⟨0, [], [], [], []⟩
  else
    let types := events.foldl (fun a e => incAssoc a e.type) []
    let byNode := events.foldl (fun a e => incAssoc2 a e.node e.type) []
    let timeDist := events.foldl
      (fun a e => incAssoc a (pad2 e.timestamp.hour ++ ":00")) []
    ⟨events.length, types, byNode, timeDist, (sortDescByCount types).take 5⟩

structure ErrorSummary where
  total : Nat
  types : List (String × Nat)
  by_node : List (String × List (String × Nat))
  top_error_types : List (String × Nat)
deriving DecidableEq

def summarize_errors (errors : List ErrorRec) : ErrorSummary :=
  if errors.isEmpty then ⟨0, [], [], []⟩
  else
    let types := errors.foldl (fun a e => incAssoc a e.type) []
    let byNode := errors.foldl (fun a e => incAssoc2 a e.node e.type) []
    ⟨errors.length, types, byNode, (sortDescByCount types).take 3⟩

/-- `_generate_analysis_summary`. -/
def generate_analysis_summary (ld : LogData) (anomalies : List LogAnomaly)
    (performance_issues : List WalPerfIssue) : String :=
  "日志条目: " ++ toString ld.total_entries
    ++ " | " ++ "节点数: " ++ toString ld.nodes.length
    ++ " | " ++ "异常: " ++ toString anomalies.length
    ++ " | " ++ "性能问题: " ++ toString performance_issues.length
    ++ " | " ++ "错误: " ++ toString ld.errors.length

structure LogAnalysis where
  events_summary : EventsSummary
  anomalies : List LogAnomaly
  performance_issues : List WalPerfIssue
  error_summary : ErrorSummary
  handler_stats : List (String × List Nat)
  summary : String
deriving DecidableEq

def analyze_parsed_logs (ld : LogData) : LogAnalysis :=
  let hs := handlerStats ld.events
  let anomalies := handlerAnomalies hs ++ errorRateAnomalies ld
  let performance_issues := walPerformanceIssues ld.events
  { events_summary := summarize_events ld.events,
    anomalies := anomalies,
    performance_issues := performance_issues,
    error_summary := summarize_errors ld.errors,
    handler_stats := hs,
    summary := generate_analysis_summary ld anomalies performance_issues }

/-! ### The log-analysis entry point with its I/O trace

`analyze_hbase_logs` is modelled as a pure function of the walked file
system together with the ordered trace of I/O actions it performs:
step 1 walks the log directory (`os.path.exists` / `os.walk`), step 2
resolves the time window (raising on malformed input), steps 3–5 filter,
open and parse the relevant files.  Per-file read failures are absorbed
by the source and the file-system model presents decoded lines directly. -/

inductive IOAct where
  | walkDir (dir : String)
  | openFile (path : String)
deriving DecidableEq

structure AnalysisResult where
  analysis_window : TimeWindow
  files_processed : Nat
  total_entries : Nat
  events_summary : EventsSummary
  anomalies : List LogAnomaly
  performance_issues : List WalPerfIssue
  error_summary : ErrorSummary
  summary : String
deriving DecidableEq

def analyze_hbase_logs (fs : FileSys) (logDir : String)
    (startTime endTime : Option String) (focusAreas : Option (List String))
    (targetNodes : Option (List String)) (now : Int) :
    List IOAct × Except Unit AnalysisResult :=
  -- step 1: discovery walks the directory tree before anything else
  let logFiles := discover_log_files fs
  let trace := [IOAct.walkDir logDir]
  -- step 2: only now is the time window parsed
  match parse_time_window startTime endTime now with
  | .error e => (trace, .error e)
  | .ok w =>
    let relevant := filter_relevant_files logFiles w targetNodes
    let trace := trace ++ relevant.map (fun f => IOAct.openFile f.1)
    let ld := parse_log_files relevant w focusAreas
    let ar := analyze_parsed_logs ld
    (trace, .ok { analysis_window := w, files_processed := relevant.length,
                  total_entries := ld.total_entries, events_summary := ar.events_summary,
                  anomalies := ar.anomalies, performance_issues := ar.performance_issues,
                  error_summary := ar.error_summary, summary := ar.summary })

/-! ### Metrics loader (`_load_metrics_data`, `_filter_metrics_by_time`)

Metric values are JSON numbers, modelled over ℚ; time values are epoch
milliseconds, converted by `datetime.fromtimestamp(ms / 1000)` to instants
(exact over ℚ, UTC local clock). -/

/-- The effective window resolved by `_load_metrics_data` together with
the `hours` field it reports (`hours_range if target_time else 72`).
`strptime` on a malformed target time raises out of the call (uncaught in
the source). -/
structure MetricsWindow where
  start : Int
  endT : Int
  hours : Int
deriving DecidableEq

def load_metrics_window (targetTime : Option String) (hoursRange : Int)
    (now : Int) : Except Unit MetricsWindow :=
  match targetTime with
  | some t =>
    -- target given: start = target, end = start + timedelta(hours=hours_range)
    (match strptimeYmdHMS t with
     | none => .error ()
     | some td => .ok ⟨toSecs td, toSecs td + 3600 * hoursRange, hoursRange⟩)
  | none =>
    -- no target: end = now, start = end - timedelta(days=3)
    .ok ⟨now - 259200, now, 72⟩

def msToSecs (ms : Int) : ℚ := (ms : ℚ) / 1000

structure FilteredMetrics where
  timestamps : List ℚ
  values : List ℚ
  count : Nat
deriving DecidableEq

/-- The index loop of `_filter_metrics_by_time`: iterate the timestamp
array, `break` once the value array is exhausted, keep pairs whose instant
lies in `[start, end]`. -/
def filterMetricsGo (s e : ℚ) : List Int → List ℚ → List ℚ × List ℚ
  | [], _ => ([], [])
  | _ :: _, [] => ([], [])
  | t :: ts, v :: vs =>
    let td := msToSecs t
    let r := filterMetricsGo s e ts vs
    if s ≤ td && td ≤ e then (td :: r.1, v :: r.2) else r

def filter_metrics_by_time (timestamps : List Int) (values : List ℚ)
    (s e : ℚ) : FilteredMetrics :=
  let r := filterMetricsGo s e timestamps values
  { timestamps := r.1, values := r.2, count := r.2.length }

/-! ### Metrics statistical analyzer (`_analyze_metrics_comprehensive`) -/

def listMaxRat : List ℚ → ℚ
  | [] => 0
  | v :: t => t.foldl max v

def listMinRat : List ℚ → ℚ
  | [] => 0
  | v :: t => t.foldl min v

def insertAscRat (x : ℚ) : List ℚ → List ℚ
  | [] => [x]
  | y :: ys => if y ≤ x then y :: insertAscRat x ys else x :: y :: ys

def sortRat (l : List ℚ) : List ℚ := l.foldl (fun acc x => insertAscRat x acc) []

/-- `statistics.median`: middle of the sorted list, or the mean of the two
middle elements on even counts. -/
def ratMedian (l : List ℚ) : ℚ :=
  let s := sortRat l
  let n := s.length
  if n % 2 = 1 then s.getD (n / 2) 0
  else (s.getD (n / 2 - 1) 0 + s.getD (n / 2) 0) / 2

/-- The square of `statistics.stdev` (sample standard deviation); the
source only compares the stdev against nonnegative constants, so every
such comparison is modelled by comparing this square against the squared
constant (`sqrt` is monotone). -/
def ratStdevSq (l : List ℚ) : ℚ :=
  let m := ratMean l
  (l.map (fun x => (x - m) ^ 2)).sum / ((l.length : ℚ) - 1)

structure SatPoint where
  timestamp : ℚ
  value : ℚ
  severity : String
deriving DecidableEq

structure HighPoint where
  timestamp : ℚ
  value : ℚ
  index : Nat
deriving DecidableEq

structure NodeStats where
  max : ℚ
  min : ℚ
  mean : ℚ
  median : ℚ
  stdSq : ℚ
  count : Nat
  timestamps : List ℚ
  values : List ℚ
  high_usage_points : List HighPoint
  high_usage_count : Nat
  saturation_points : List SatPoint
  saturation_count : Nat
deriving DecidableEq

/-- Per-node statistics (the loop body of `_analyze_metrics_comprehensive`
for a node with at least one value). -/
def nodeStatsOf (fm : FilteredMetrics) : NodeStats :=
  let values := fm.values
  let timestamps := fm.timestamps
  let highs : List HighPoint := ((timestamps.zip values).enum.filter
    (fun p => 50 ≤ p.2.2)).map
    (fun (p : ℕ × ℚ × ℚ) => { timestamp := p.2.1, value := p.2.2, index := p.1 })
  let sats : List SatPoint := ((timestamps.zip values).filter
    (fun p => 58 ≤ p.2)).map
    (fun (p : ℚ × ℚ) => { timestamp := p.1, value := p.2,
                          severity := if 60 ≤ p.2 then "critical" else "high" })
  { max := listMaxRat values, min := listMinRat values,
    mean := ratMean values, median := ratMedian values,
    stdSq := if 1 < values.length then ratStdevSq values else 0,
    count := values.length, timestamps := timestamps, values := values,
    high_usage_points := highs, high_usage_count := highs.length,
    saturation_points := sats, saturation_count := sats.length }

structure ClusterSummary where
  total_nodes : Nat
  cluster_max : ℚ
  cluster_mean : ℚ
  cluster_stdSq : ℚ
  total_data_points : Nat
deriving DecidableEq

structure PerformanceMetrics where
  high_usage_nodes : List String
  saturated_nodes : List String
  high_usage_node_count : Nat
  saturated_node_count : Nat
deriving DecidableEq

structure MetricsAnalysis where
  node_analysis : List (String × NodeStats)
  cluster_summary : Option ClusterSummary
  performance_metrics : PerformanceMetrics
deriving DecidableEq

/-- `_analyze_metrics_comprehensive`; the `metric_types` argument is
accepted but unused by the source.  Nodes with no filtered values are
skipped (`continue`). -/
def analyze_metrics_comprehensive (hm : List (String × FilteredMetrics))
    (_mt : Option (List String)) : MetricsAnalysis :=
  let nodeStats := hm.foldl
    (fun acc nv => if nv.2.values.isEmpty then acc else acc ++ [(nv.1, nodeStatsOf nv.2)]) []
  let allValues := hm.foldl
    (fun acc nv => if nv.2.values.isEmpty then acc else acc ++ nv.2.values) []
  let highUsageNodes := (nodeStats.filter (fun ns => 0 < ns.2.high_usage_count)).map Prod.fst
  let saturatedNodes := (nodeStats.filter (fun ns => 0 < ns.2.saturation_count)).map Prod.fst
  { node_analysis := nodeStats,
    cluster_summary :=
      if allValues.isEmpty then none
      else some { total_nodes := nodeStats.length, cluster_max := listMaxRat allValues,
                  cluster_mean := ratMean allValues,
                  cluster_stdSq := if 1 < allValues.length then ratStdevSq allValues else 0,
                  total_data_points := allValues.length },
    performance_metrics :=
      { high_usage_nodes := highUsageNodes, saturated_nodes := saturatedNodes,
        high_usage_node_count := highUsageNodes.length,
        saturated_node_count := saturatedNodes.length } }

/-! ### Metrics anomaly detector (`_detect_metrics_anomalies_comprehensive`) -/

inductive MetricAnomaly where
  | handler_saturation (node : String) (severity : String) (max_value : ℚ)
      (saturation_count : Nat) (timestamps : List ℚ) (values : List ℚ)
  | high_handler_usage (node : String) (severity : String) (max_value mean_value : ℚ)
      (high_usage_count : Nat) (timestamps : List ℚ) (values : List ℚ)
  | handler_volatility (node : String) (severity : String) (std_sq max_value : ℚ)
  | cluster_saturation (severity : String) (affected_nodes : List String) (node_count : Nat)
  | cluster_high_usage (severity : String) (affected_nodes : List String) (node_count : Nat)
deriving DecidableEq

/-- The per-node rules: saturation, else high usage; volatility
independently (`std > 15` is `stdSq > 225`). -/
def perNodeMetricAnomalies (na : List (String × NodeStats)) : List MetricAnomaly :=
  na.foldl
    (fun acc ns =>
      let acc :=
        if 0 < ns.2.saturation_count then
          acc ++ [.handler_saturation ns.1 (if 60 ≤ ns.2.max then "critical" else "high")
            ns.2.max ns.2.saturation_count
            (ns.2.saturation_points.map (fun sp => sp.timestamp))
            (ns.2.saturation_points.map (fun sp => sp.value))]
        else if 5 < ns.2.high_usage_count then
          acc ++ [.high_handler_usage ns.1 "medium" ns.2.max ns.2.mean ns.2.high_usage_count
            (ns.2.high_usage_points.map (fun hp => hp.timestamp))
            (ns.2.high_usage_points.map (fun hp => hp.value))]
        else acc
      if 225 < ns.2.stdSq && 30 < ns.2.max then
        acc ++ [.handler_volatility ns.1 "medium" ns.2.stdSq ns.2.max]
      else acc)
    []

/-- The cluster rules appended after the per-node loop.  The source
compares `count > len(node_analysis) * 0.3` in floats; for natural counts
the float product `n * 0.3` rounds to a value strictly between the
neighbouring integers unless `3n/10` is itself an integer, in which case
it rounds to exactly that integer, so the comparison agrees with the
exact rational one modelled here. -/
def clusterMetricAnomalies (ma : MetricsAnalysis) : List MetricAnomaly :=
  let pm := ma.performance_metrics
  if 1 < pm.saturated_node_count then
    [.cluster_saturation "critical" pm.saturated_nodes pm.saturated_node_count]
  else if (ma.node_analysis.length : ℚ) * (3 / 10) < pm.high_usage_node_count then
    [.cluster_high_usage "high" pm.high_usage_nodes pm.high_usage_node_count]
  else []

def detect_metrics_anomalies_comprehensive (ma : MetricsAnalysis) :
    List MetricAnomaly :=
  perNodeMetricAnomalies ma.node_analysis ++ clusterMetricAnomalies ma

/-! ### Trend analyzer (`_analyze_performance_trends`) -/

structure Trend where
  overall_trend : String
  first_half_avg : ℚ
  second_half_avg : ℚ
  trend_magnitude : ℚ
deriving DecidableEq

/-- Stable ascending insertion by timestamp, matching the stability of
`list.sort(key=lambda x: x[0])`. -/
def insertAscByTime (x : ℚ × ℚ) : List (ℚ × ℚ) → List (ℚ × ℚ)
  | [] => [x]
  | y :: ys => if y.1 ≤ x.1 then y :: insertAscByTime x ys else x :: y :: ys

def sortByTime (l : List (ℚ × ℚ)) : List (ℚ × ℚ) :=
  l.foldl (fun acc x => insertAscByTime x acc) []

/-- All nodes' `(timestamp, value)` pairs pooled in node order, sorted by
timestamp, values only (`sorted_values` in the source). -/
def pooledSortedValues (hm : List (String × FilteredMetrics)) : List ℚ :=
  let allTs := hm.foldl (fun acc nv => acc ++ nv.2.timestamps) []
  let allVs := hm.foldl (fun acc nv => acc ++ nv.2.values) []
  (sortByTime (allTs.zip allVs)).map Prod.snd

/-- `_analyze_performance_trends`; the empty dict result is `none`.  The
float factors 1.1 and 0.9 are modelled as the exact rationals 11/10 and
9/10 (see the file header). -/
def analyze_performance_trends (hm : List (String × FilteredMetrics)) :
    Option Trend :=
  let sortedValues := pooledSortedValues hm
  if 10 ≤ sortedValues.length then
    let firstHalf := sortedValues.take (sortedValues.length / 2)
    let secondHalf := sortedValues.drop (sortedValues.length / 2)
    let firstAvg := ratMean firstHalf
    let secondAvg := ratMean secondHalf
    some { overall_trend :=
             if firstAvg * (11 / 10) < secondAvg then "increasing"
             else if secondAvg < firstAvg * (9 / 10) then "decreasing"
             else "stable",
           first_half_avg := firstAvg, second_half_avg := secondAvg,
           trend_magnitude :=
             if 0 < firstAvg then |secondAvg - firstAvg| / firstAvg else 0 }
  else none

/-! ### Claim-side definitions

Definitions below restate quantities in the spec's vocabulary, for the
claim statements to be independent of the accumulator-style embeddings
above. -/

/-- The handler values observed for one node: the values of that node's
`handler_usage` events, in event order. -/
def handlerValues (events : List Event) (node : String) : List Nat :=
  (events.filter (fun e => e.type = "handler_usage" && e.node = node)).map
    (fun e => e.value.getD 0)

/-- First-match lookup of a node's value list in a grouping. -/
def groupVals : List (String × List Nat) → String → List Nat
  | [], _ => []
  | (m, vs) :: rest, n => if m = n then vs else groupVals rest n

/-- First-match lookup of a count in an association list. -/
def assocCount : List (String × Nat) → String → Nat
  | [], _ => 0
  | (k, n) :: rest, ty => if k = ty then n else assocCount rest ty

/-- The spec's error-classification priority chain, first match wins
(`timeout → memory → network → io → permission → configuration → data →
resource → FATAL → ERROR → WARN → Exception → unknown`). -/
def timeoutTrigger (line : String) : Bool :=
  containsSubstr "timed out" line || containsSubstr "timeout" (pyLower line)

def memoryTrigger (line : String) : Bool :=
  containsSubstr "outofmemoryerror" (pyLower line)
    || containsSubstr "out of memory" (pyLower line)

def networkTrigger (line : String) : Bool :=
  containsSubstr "connection" (pyLower line) || containsSubstr "socket" (pyLower line)
    || containsSubstr "network" (pyLower line)

def ioTrigger (line : String) : Bool :=
  containsSubstr "ioexception" (pyLower line) || containsSubstr "disk" (pyLower line)
    || containsSubstr "file" (pyLower line)

def permissionTrigger (line : String) : Bool :=
  containsSubstr "permission" (pyLower line)
    || containsSubstr "access denied" (pyLower line)
    || containsSubstr "unauthorized" (pyLower line)

def configurationTrigger (line : String) : Bool :=
  containsSubstr "configuration" (pyLower line) || containsSubstr "config" (pyLower line)
    || containsSubstr "property" (pyLower line)

def dataTrigger (line : String) : Bool :=
  containsSubstr "corrupt" (pyLower line) || containsSubstr "checksum" (pyLower line)
    || containsSubstr "data" (pyLower line)

def resourceTrigger (line : String) : Bool :=
  containsSubstr "resource" (pyLower line) || containsSubstr "quota" (pyLower line)
    || containsSubstr "limit" (pyLower line)

def fatalTrigger (line : String) : Bool := containsSubstr "FATAL" line

def errorLiteralTrigger (line : String) : Bool := containsSubstr "ERROR" line

def warnTrigger (line : String) : Bool := containsSubstr "WARN" line

def exceptionTrigger (line : String) : Bool := containsSubstr "Exception" line

def errorKindChain : List ((String → Bool) × String) :=
  [(timeoutTrigger, "timeout"), (memoryTrigger, "memory"),
   (networkTrigger, "network"), (ioTrigger, "io"),
   (permissionTrigger, "permission"), (configurationTrigger, "configuration"),
   (dataTrigger, "data"), (resourceTrigger, "resource"),
   (fatalTrigger, "fatal"), (errorLiteralTrigger, "error"),
   (warnTrigger, "warning"), (exceptionTrigger, "exception")]

def firstMatchKind : List ((String → Bool) × String) → String → String
  | [], _ => "unknown"
  | r :: rest, line => if r.1 line then r.2 else firstMatchKind rest line

/-- Whether a resolver result is a window with `start ≤ end` (errors count
as vacuously ordered). -/
def exceptWindowOrdered : Except Unit TimeWindow → Bool
  | .ok w => decide (w.start ≤ w.endT)
  | .error _ => true

/-- Nodes of a metrics set with at least one filtered point of value ≥ 58. -/
def saturatedInputNodes (hm : List (String × FilteredMetrics)) : List String :=
  (hm.filter (fun nv => (nv.2.timestamps.zip nv.2.values).any (fun p => 58 ≤ p.2))).map
    Prod.fst

/-- Nodes of a metrics set with at least one filtered point of value ≥ 50. -/
def highUsageInputNodes (hm : List (String × FilteredMetrics)) : List String :=
  (hm.filter (fun nv => (nv.2.timestamps.zip nv.2.values).any (fun p => 50 ≤ p.2))).map
    Prod.fst

/-- Nodes of a metrics set with at least one filtered value (the analyzed
nodes). -/
def analyzedInputNodes (hm : List (String × FilteredMetrics)) : List String :=
  (hm.filter (fun nv => !nv.2.values.isEmpty)).map Prod.fst

/-- The events one line contributes to a parse run (empty when the line is
skipped by the timestamp extraction or the window filter). -/
def lineEventsAt (w : TimeWindow) (node : String) (fa : Option (List String))
    (line : String) : List Event :=
  match extract_line_time line with
  | none => []
  | some dt =>
    if w.start ≤ toSecs dt && toSecs dt ≤ w.endT then
      (parse_log_line line dt node fa).1
    else []

/-- The error records one line contributes to a parse run. -/
def lineErrorsAt (w : TimeWindow) (node : String) (fa : Option (List String))
    (line : String) : List ErrorRec :=
  match extract_line_time line with
  | none => []
  | some dt =>
    if w.start ≤ toSecs dt && toSecs dt ≤ w.endT then
      (parse_log_line line dt node fa).2
    else []

/-- 1 when the line is counted as a retained entry, else 0. -/
def lineCounted (w : TimeWindow) (line : String) : Nat :=
  match extract_line_time line with
  | none => 0
  | some dt => if w.start ≤ toSecs dt && toSecs dt ≤ w.endT then 1 else 0

/-- The events one file contributes to a parse run. -/
def fileEventsAt (w : TimeWindow) (fa : Option (List String))
    (f : String × List String) : List Event :=
  f.2.flatMap (lineEventsAt w (extract_node_name f.1) fa)

/-- The error records one file contributes to a parse run. -/
def fileErrorsAt (w : TimeWindow) (fa : Option (List String))
    (f : String × List String) : List ErrorRec :=
  f.2.flatMap (lineErrorsAt w (extract_node_name f.1) fa)

/-- The number of retained entries one file contributes. -/
def fileCounted (w : TimeWindow) (f : String × List String) : Nat :=
  (f.2.map (lineCounted w)).sum

/-! ### Concrete inputs used by counterexamples and witnesses -/

def cxLineA : String := "2025-06-01 10:00:00,123 Starting compaction"

def cxLineB : String := "2025-06-01 10:00:00,123 Flushing"

def cxFilesAB : FileSys := [("a.log", [cxLineA]), ("b.log", [cxLineB])]

def cxFilesBA : FileSys := [("b.log", [cxLineB]), ("a.log", [cxLineA])]

def wEv (node : String) (v : Nat) : Event :=
  { mkEv "handler_usage" ⟨2025, 6, 1, 10, 0, 0⟩ node "" with value := some v }

def wErr : ErrorRec :=
  { timestamp := ⟨2025, 6, 1, 10, 0, 0⟩, node := "n1", type := "error", line := "" }

/-- Ten error records among one hundred entries (spec Scenario B). -/
def wLogData : LogData :=
  { total_entries := 100, events := [wEv "ip-10-0-0-1" 59, wEv "ip-10-0-0-1" 61],
    errors := List.replicate 10 wErr, nodes := ["ip-10-0-0-1"] }

def wFm (vs : List ℚ) : FilteredMetrics :=
  { timestamps := vs.enum.map (fun p => (p.1 : ℚ)), values := vs, count := vs.length }

/-- Two saturated nodes and one idle node. -/
def wMetrics : List (String × FilteredMetrics) :=
  [("ip-10-0-0-1", wFm [59, 40]), ("ip-10-0-0-2", wFm [61]), ("ip-10-0-0-3", wFm [10])]

/-- Twelve ascending points whose second half averages more than 10%
above the first half (spec Scenario C). -/
def wTrendMetrics : List (String × FilteredMetrics) :=
  [("ip-10-0-0-2", wFm [1, 1, 1, 1, 1, 1, 2, 2, 2, 2, 2, 2])]

/-! ## Helper lemmas -/

theorem mem_optEv {o : Option α} {f : α → Event} {e : Event} :
    e ∈ optEv o f ↔ ∃ n, o = some n ∧ e = f n := by
  cases o <;> simp [optEv]

theorem mem_iteEv {c : Bool} {x e : Event} :
    e ∈ iteEv c x ↔ c = true ∧ e = x := by
  cases c <;> simp [iteEv]

theorem mem_ite_nil {α : Type _} {c : Prop} [Decidable c] {l : List α} {x : α}
    (h : x ∈ if c then l else []) : x ∈ l := by
  by_cases hc : c
  · rwa [if_pos hc] at h
  · rw [if_neg hc] at h
    simp at h

theorem handlerEvents_timestamp (line : String) (t : DateTime) (node : String) :
    ∀ e ∈ handlerEvents line t node, e.timestamp = t := by
  intro e he
  unfold handlerEvents at he
  rcases mem_optEv.mp he with ⟨n, -, rfl⟩
  rfl

theorem walEvents_timestamp (line : String) (t : DateTime) (node : String) :
    ∀ e ∈ walEvents line t node, e.timestamp = t := by
  intro e he
  unfold walEvents at he
  simp only [List.mem_append, or_assoc] at he
  rcases he with he | he | he
  · rcases mem_optEv.mp he with ⟨n, -, rfl⟩; rfl
  · rcases mem_iteEv.mp he with ⟨-, rfl⟩; rfl
  · rcases mem_optEv.mp he with ⟨n, -, rfl⟩; rfl

theorem gcEvents_timestamp (line : String) (t : DateTime) (node : String) :
    ∀ e ∈ gcEvents line t node, e.timestamp = t := by
  intro e he
  unfold gcEvents at he
  simp only [List.mem_append, or_assoc] at he
  rcases he with he | he
  · rcases mem_optEv.mp he with ⟨n, -, rfl⟩; rfl
  · rcases mem_iteEv.mp he with ⟨-, rfl⟩; rfl

theorem memoryEvents_timestamp (line : String) (t : DateTime) (node : String) :
    ∀ e ∈ memoryEvents line t node, e.timestamp = t := by
  intro e he
  unfold memoryEvents at he
  simp only [List.mem_append, or_assoc] at he
  rcases he with he | he
  · rcases mem_optEv.mp he with ⟨n, -, rfl⟩; rfl
  · rcases mem_iteEv.mp he with ⟨-, rfl⟩; rfl

theorem compactionEvents_timestamp (line : String) (t : DateTime) (node : String) :
    ∀ e ∈ compactionEvents line t node, e.timestamp = t := by
  intro e he
  unfold compactionEvents at he
  simp only [List.mem_append, or_assoc] at he
  rcases he with he | he | he
  · rcases mem_iteEv.mp he with ⟨-, rfl⟩; rfl
  · rcases mem_optEv.mp he with ⟨n, -, rfl⟩; rfl
  · rcases mem_iteEv.mp he with ⟨-, rfl⟩; rfl

theorem splitEvents_timestamp (line : String) (t : DateTime) (node : String) :
    ∀ e ∈ splitEvents line t node, e.timestamp = t := by
  intro e he
  unfold splitEvents at he
  simp only [List.mem_append, or_assoc] at he
  rcases he with he | he
  · rcases mem_iteEv.mp he with ⟨-, rfl⟩; rfl
  · rcases mem_iteEv.mp he with ⟨-, rfl⟩; rfl

theorem flushEvents_timestamp (line : String) (t : DateTime) (node : String) :
    ∀ e ∈ flushEvents line t node, e.timestamp = t := by
  intro e he
  unfold flushEvents at he
  simp only [List.mem_append, or_assoc] at he
  rcases he with he | he
  · rcases mem_iteEv.mp he with ⟨-, rfl⟩; rfl
  · rcases mem_optEv.mp he with ⟨n, -, rfl⟩; rfl

theorem queueEvents_timestamp (line : String) (t : DateTime) (node : String) :
    ∀ e ∈ queueEvents line t node, e.timestamp = t := by
  intro e he
  unfold queueEvents at he
  simp only [List.mem_append, or_assoc] at he
  rcases he with he | he
  · rcases mem_optEv.mp he with ⟨n, -, rfl⟩; rfl
  · rcases mem_iteEv.mp he with ⟨-, rfl⟩; rfl

theorem networkEvents_timestamp (line : String) (t : DateTime) (node : String) :
    ∀ e ∈ networkEvents line t node, e.timestamp = t := by
  intro e he
  unfold networkEvents at he
  simp only [List.mem_append, or_assoc] at he
  rcases he with he | he
  · rcases mem_iteEv.mp he with ⟨-, rfl⟩; rfl
  · rcases mem_iteEv.mp he with ⟨-, rfl⟩; rfl

theorem tableEvents_timestamp (line : String) (t : DateTime) (node : String) :
    ∀ e ∈ tableEvents line t node, e.timestamp = t := by
  intro e he
  unfold tableEvents at he
  simp only [List.mem_append, or_assoc] at he
  rcases he with he | he | he
  · rcases mem_iteEv.mp he with ⟨-, rfl⟩; rfl
  · rcases mem_iteEv.mp he with ⟨-, rfl⟩; rfl
  · rcases mem_optEv.mp he with ⟨n, -, rfl⟩; rfl

theorem balancerEvents_timestamp (line : String) (t : DateTime) (node : String) :
    ∀ e ∈ balancerEvents line t node, e.timestamp = t := by
  intro e he
  unfold balancerEvents at he
  simp only [List.mem_append, or_assoc] at he
  rcases he with he | he
  · rcases mem_iteEv.mp he with ⟨-, rfl⟩; rfl
  · rcases mem_iteEv.mp he with ⟨-, rfl⟩; rfl

theorem clientEvents_timestamp (line : String) (t : DateTime) (node : String) :
    ∀ e ∈ clientEvents line t node, e.timestamp = t := by
  intro e he
  unfold clientEvents at he
  simp only [List.mem_append, or_assoc] at he
  rcases he with he | he
  · rcases mem_optEv.mp he with ⟨n, -, rfl⟩; rfl
  · rcases mem_iteEv.mp he with ⟨-, rfl⟩; rfl

theorem performanceEvents_timestamp (line : String) (t : DateTime) (node : String) :
    ∀ e ∈ performanceEvents line t node, e.timestamp = t := by
  intro e he
  unfold performanceEvents at he
  simp only [List.mem_append, or_assoc] at he
  rcases he with he | he
  · rcases mem_optEv.mp he with ⟨n, -, rfl⟩; rfl
  · rcases mem_optEv.mp he with ⟨n, -, rfl⟩; rfl

theorem parse_log_line_timestamp (line : String) (t : DateTime) (node : String)
    (fa : Option (List String)) :
    ∀ e ∈ (parse_log_line line t node fa).1, e.timestamp = t := by
  intro e he
  unfold parse_log_line at he
  simp only [List.mem_append, or_assoc] at he
  rcases he with h | h | h | h | h | h | h | h | h | h | h | h | h
  · exact handlerEvents_timestamp _ _ _ _ (mem_ite_nil h)
  · exact walEvents_timestamp _ _ _ _ (mem_ite_nil h)
  · exact gcEvents_timestamp _ _ _ _ (mem_ite_nil h)
  · exact memoryEvents_timestamp _ _ _ _ (mem_ite_nil h)
  · exact compactionEvents_timestamp _ _ _ _ (mem_ite_nil h)
  · exact splitEvents_timestamp _ _ _ _ (mem_ite_nil h)
  · exact flushEvents_timestamp _ _ _ _ (mem_ite_nil h)
  · exact queueEvents_timestamp _ _ _ _ (mem_ite_nil h)
  · exact networkEvents_timestamp _ _ _ _ (mem_ite_nil h)
  · exact tableEvents_timestamp _ _ _ _ (mem_ite_nil h)
  · exact balancerEvents_timestamp _ _ _ _ (mem_ite_nil h)
  · exact clientEvents_timestamp _ _ _ _ (mem_ite_nil h)
  · exact performanceEvents_timestamp _ _ _ _ (mem_ite_nil h)

theorem parse_log_line_error_timestamp (line : String) (t : DateTime) (node : String)
    (fa : Option (List String)) :
    ∀ r ∈ (parse_log_line line t node fa).2, r.timestamp = t := by
  intro r hr
  unfold parse_log_line at hr
  have hr' := mem_ite_nil hr
  unfold errorRecords at hr'
  have hr'' := List.mem_singleton.mp (mem_ite_nil hr')
  subst hr''
  rfl

theorem parse_file_line_of_none {w : TimeWindow} {node : String}
    {fa : Option (List String)} {ld : LogData} {line : String}
    (h : extract_line_time line = none) :
    parse_file_line w node fa ld line = ld := by
  unfold parse_file_line
  rw [h]

theorem parse_file_line_of_in {w : TimeWindow} {node : String}
    {fa : Option (List String)} {ld : LogData} {line : String} {dt : DateTime}
    (h : extract_line_time line = some dt)
    (h1 : w.start ≤ toSecs dt) (h2 : toSecs dt ≤ w.endT) :
    parse_file_line w node fa ld line =
      { ld with total_entries := ld.total_entries + 1,
                events := ld.events ++ (parse_log_line line dt node fa).1,
                errors := ld.errors ++ (parse_log_line line dt node fa).2 } := by
  unfold parse_file_line
  rw [h]
  simp [h1, h2]

theorem parse_file_line_of_out {w : TimeWindow} {node : String}
    {fa : Option (List String)} {ld : LogData} {line : String} {dt : DateTime}
    (h : extract_line_time line = some dt)
    (hout : toSecs dt < w.start ∨ w.endT < toSecs dt) :
    parse_file_line w node fa ld line = ld := by
  unfold parse_file_line
  rw [h]
  rcases hout with h' | h' <;> simp [not_le.mpr h']

theorem parse_file_line_spec (w : TimeWindow) (node : String)
    (fa : Option (List String)) (ld : LogData) (line : String) :
    (parse_file_line w node fa ld line).events = ld.events ++ lineEventsAt w node fa line
    ∧ (parse_file_line w node fa ld line).errors = ld.errors ++ lineErrorsAt w node fa line
    ∧ (parse_file_line w node fa ld line).total_entries
        = ld.total_entries + lineCounted w line
    ∧ (parse_file_line w node fa ld line).nodes = ld.nodes := by
  unfold parse_file_line lineEventsAt lineErrorsAt lineCounted
  cases h : extract_line_time line with
  | none => simp
  | some dt =>
    by_cases hin : (w.start ≤ toSecs dt && toSecs dt ≤ w.endT) = true
    · simp [hin]
    · simp [hin]

theorem foldl_parse_file_line (w : TimeWindow) (node : String)
    (fa : Option (List String)) :
    ∀ (lines : List String) (ld : LogData),
      (lines.foldl (parse_file_line w node fa) ld).events
          = ld.events ++ lines.flatMap (lineEventsAt w node fa)
      ∧ (lines.foldl (parse_file_line w node fa) ld).errors
          = ld.errors ++ lines.flatMap (lineErrorsAt w node fa)
      ∧ (lines.foldl (parse_file_line w node fa) ld).total_entries
          = ld.total_entries + (lines.map (lineCounted w)).sum
      ∧ (lines.foldl (parse_file_line w node fa) ld).nodes = ld.nodes := by
  intro lines
  induction lines with
  | nil => intro ld; simp
  | cons l ls ih =>
    intro ld
    obtain ⟨he, hr, hc, hn⟩ := parse_file_line_spec w node fa ld l
    obtain ⟨ihe, ihr, ihc, ihn⟩ := ih (parse_file_line w node fa ld l)
    simp only [List.foldl_cons, List.flatMap_cons, List.map_cons, List.sum_cons]
    refine ⟨?_, ?_, ?_, ?_⟩
    · rw [ihe, he, List.append_assoc]
    · rw [ihr, hr, List.append_assoc]
    · rw [ihc, hc]; omega
    · rw [ihn, hn]

theorem parse_files_step_spec (w : TimeWindow) (fa : Option (List String))
    (ld : LogData) (f : String × List String) :
    (parse_files_step w fa ld f).events = ld.events ++ fileEventsAt w fa f
    ∧ (parse_files_step w fa ld f).errors = ld.errors ++ fileErrorsAt w fa f
    ∧ (parse_files_step w fa ld f).total_entries = ld.total_entries + fileCounted w f := by
  unfold parse_files_step fileEventsAt fileErrorsAt fileCounted
  obtain ⟨he, hr, hc, -⟩ := foldl_parse_file_line w (extract_node_name f.1) fa f.2
    { ld with nodes := addNode ld.nodes (extract_node_name f.1) }
  exact ⟨he, hr, hc⟩

theorem foldl_parse_files (w : TimeWindow) (fa : Option (List String)) :
    ∀ (files : FileSys) (ld : LogData),
      (files.foldl (parse_files_step w fa) ld).events
          = ld.events ++ files.flatMap (fileEventsAt w fa)
      ∧ (files.foldl (parse_files_step w fa) ld).errors
          = ld.errors ++ files.flatMap (fileErrorsAt w fa)
      ∧ (files.foldl (parse_files_step w fa) ld).total_entries
          = ld.total_entries + (files.map (fileCounted w)).sum := by
  intro files
  induction files with
  | nil => intro ld; simp
  | cons f fs ih =>
    intro ld
    obtain ⟨he, hr, hc⟩ := parse_files_step_spec w fa ld f
    obtain ⟨ihe, ihr, ihc⟩ := ih (parse_files_step w fa ld f)
    simp only [List.foldl_cons, List.flatMap_cons, List.map_cons, List.sum_cons]
    refine ⟨?_, ?_, ?_⟩
    · rw [ihe, he, List.append_assoc]
    · rw [ihr, hr, List.append_assoc]
    · rw [ihc, hc]; omega

theorem parse_log_files_spec (files : FileSys) (w : TimeWindow)
    (fa : Option (List String)) :
    (parse_log_files files w fa).events = files.flatMap (fileEventsAt w fa)
    ∧ (parse_log_files files w fa).errors = files.flatMap (fileErrorsAt w fa)
    ∧ (parse_log_files files w fa).total_entries = (files.map (fileCounted w)).sum := by
  unfold parse_log_files
  obtain ⟨he, hr, hc⟩ := foldl_parse_files w fa files ⟨0, [], [], []⟩
  exact ⟨by simpa using he, by simpa using hr, by simpa using hc⟩

theorem lineEventsAt_window (w : TimeWindow) (node : String)
    (fa : Option (List String)) (line : String) :
    ∀ e ∈ lineEventsAt w node fa line,
      w.start ≤ toSecs e.timestamp ∧ toSecs e.timestamp ≤ w.endT := by
  intro e
  unfold lineEventsAt
  cases h : extract_line_time line with
  | none => intro he; simp at he
  | some dt =>
    intro he
    have he' : e ∈ (if (w.start ≤ toSecs dt && toSecs dt ≤ w.endT) = true
        then (parse_log_line line dt node fa).1 else []) := he
    by_cases hin : (w.start ≤ toSecs dt && toSecs dt ≤ w.endT) = true
    · rw [if_pos hin] at he'
      rw [parse_log_line_timestamp line dt node fa e he']
      simpa [Bool.and_eq_true, decide_eq_true_eq] using hin
    · rw [if_neg hin] at he'; simp at he'

theorem lineErrorsAt_window (w : TimeWindow) (node : String)
    (fa : Option (List String)) (line : String) :
    ∀ r ∈ lineErrorsAt w node fa line,
      w.start ≤ toSecs r.timestamp ∧ toSecs r.timestamp ≤ w.endT := by
  intro r
  unfold lineErrorsAt
  cases h : extract_line_time line with
  | none => intro hr; simp at hr
  | some dt =>
    intro hr
    have hr' : r ∈ (if (w.start ≤ toSecs dt && toSecs dt ≤ w.endT) = true
        then (parse_log_line line dt node fa).2 else []) := hr
    by_cases hin : (w.start ≤ toSecs dt && toSecs dt ≤ w.endT) = true
    · rw [if_pos hin] at hr'
      rw [parse_log_line_error_timestamp line dt node fa r hr']
      simpa [Bool.and_eq_true, decide_eq_true_eq] using hin
    · rw [if_neg hin] at hr'; simp at hr'

theorem filterMetricsGo_eq (s e : ℚ) :
    ∀ (ts : List Int) (vs : List ℚ),
      filterMetricsGo s e ts vs
        = (((ts.zip vs).filter
              (fun p => s ≤ msToSecs p.1 && msToSecs p.1 ≤ e)).map
            (fun p => (msToSecs p.1, p.2))).unzip := by
  intro ts
  induction ts with
  | nil => intro vs; simp [filterMetricsGo]
  | cons t ts ih =>
    intro vs
    cases vs with
    | nil => simp [filterMetricsGo]
    | cons v vs =>
      simp only [filterMetricsGo, List.zip_cons_cons, List.filter_cons]
      by_cases h : (s ≤ msToSecs t && msToSecs t ≤ e) = true
      · simp [h, ih vs]
      · simp [h, ih vs]

/-! ## Claim theorems -/

/-- C2: every retained Event and ErrorRecord of a log parse run, and
every retained metric point, carries a timestamp `t` with
`start ≤ t ≤ end`, both bounds inclusive; a line whose extracted
timestamp lies in the window (including exactly at a bound) is counted as
retained, one strictly outside leaves the parse state unchanged, and a
metric point is kept exactly when its instant lies in `[start, end]`. -/
theorem window_filter_inclusive :
    (∀ (files : FileSys) (w : TimeWindow) (fa : Option (List String)),
      (∀ e ∈ (parse_log_files files w fa).events,
        w.start ≤ toSecs e.timestamp ∧ toSecs e.timestamp ≤ w.endT)
      ∧ ∀ r ∈ (parse_log_files files w fa).errors,
        w.start ≤ toSecs r.timestamp ∧ toSecs r.timestamp ≤ w.endT)
    ∧ (∀ (w : TimeWindow) (node : String) (fa : Option (List String))
        (ld : LogData) (line : String) (dt : DateTime),
        extract_line_time line = some dt →
        (w.start ≤ toSecs dt ∧ toSecs dt ≤ w.endT →
          (parse_file_line w node fa ld line).total_entries = ld.total_entries + 1)
        ∧ (toSecs dt < w.start ∨ w.endT < toSecs dt →
            parse_file_line w node fa ld line = ld))
    ∧ (∀ (ts : List Int) (vs : List ℚ) (s e tq : ℚ),
        tq ∈ (filter_metrics_by_time ts vs s e).timestamps ↔
          ∃ p ∈ ts.zip vs, msToSecs p.1 = tq ∧ s ≤ tq ∧ tq ≤ e) := by
  refine ⟨?_, ?_, ?_⟩
  · intro files w fa
    obtain ⟨he, hr, -⟩ := parse_log_files_spec files w fa
    constructor
    · intro e hmem
      rw [he] at hmem
      rcases List.mem_flatMap.mp hmem with ⟨f, -, hf⟩
      rcases List.mem_flatMap.mp hf with ⟨line, -, hl⟩
      exact lineEventsAt_window w (extract_node_name f.1) fa line e hl
    · intro r hmem
      rw [hr] at hmem
      rcases List.mem_flatMap.mp hmem with ⟨f, -, hf⟩
      rcases List.mem_flatMap.mp hf with ⟨line, -, hl⟩
      exact lineErrorsAt_window w (extract_node_name f.1) fa line r hl
  · intro w node fa ld line dt h
    constructor
    · intro hin
      rw [parse_file_line_of_in h hin.1 hin.2]
    · intro hout
      exact parse_file_line_of_out h hout
  · intro ts vs s e tq
    unfold filter_metrics_by_time
    rw [filterMetricsGo_eq]
    simp only [List.unzip_fst, List.map_map, List.mem_map, List.mem_filter,
      Function.comp, Bool.and_eq_true, decide_eq_true_eq]
    constructor
    · rintro ⟨p, ⟨hp, h1, h2⟩, rfl⟩
      exact ⟨p, hp, rfl, h1, h2⟩
    · rintro ⟨p, hp, rfl, h1, h2⟩
      exact ⟨p, ⟨hp, h1, h2⟩, rfl⟩

/-- Witness for C2: a metric point whose instant equals both bounds of a
degenerate window `[1, 1]` is retained. -/
theorem window_filter_inclusive_witness :
    (1 : ℚ) ∈ (filter_metrics_by_time [1000] [7] 1 1).timestamps :=
  (window_filter_inclusive.2.2 [1000] [7] 1 1 1).mpr
    ⟨(1000, 7), by decide, by norm_num [msToSecs], le_refl 1, le_refl 1⟩

/-- C10: the metrics loader's effective window is
`[target, target + hours_range]` when a target time is given (extending
forward), and exactly `[now − 3 days, now]` with the `hours` field
hard-coded to 72 and `hours_range` ignored when it is not. -/
theorem load_metrics_window_spec :
    (∀ (t : String) (dt : DateTime) (hoursRange now : Int),
      strptimeYmdHMS t = some dt →
      load_metrics_window (some t) hoursRange now
        = .ok ⟨toSecs dt, toSecs dt + 3600 * hoursRange, hoursRange⟩)
    ∧ (∀ (hoursRange now : Int),
      load_metrics_window none hoursRange now = .ok ⟨now - 259200, now, 72⟩) := by
  constructor
  · intro t dt hoursRange now h
    simp [load_metrics_window, h]
  · intro hoursRange now
    rfl

/-- Witness for C10: a concrete target time. -/
theorem load_metrics_window_spec_witness :
    strptimeYmdHMS "2025-06-01 10:00:00" = some ⟨2025, 6, 1, 10, 0, 0⟩
    ∧ load_metrics_window (some "2025-06-01 10:00:00") 5 0
        = .ok ⟨1748772000, 1748790000, 5⟩ := by
  refine ⟨by decide, ?_⟩
  have h := load_metrics_window_spec.1 "2025-06-01 10:00:00" ⟨2025, 6, 1, 10, 0, 0⟩
    5 0 (by decide)
  rw [h]
  rfl

/-- C4 counterexample: with both bounds supplied and end before start,
the resolver returns a window with `start > end` (no ordering check). -/
theorem parse_time_window_unordered_cx :
    exceptWindowOrdered
      (parse_time_window (some "2025-01-02 00:00:00") (some "2025-01-01 00:00:00") 0)
      = false := by decide

/-- C4 (amended): the resolver's windows satisfy `start ≤ end` whenever at
least one bound is defaulted (only start given, or neither given); with
both bounds given they are used as-is and may be unordered. -/
theorem parse_time_window_default_ordered :
    ∀ (st et : Option String) (now : Int) (w : TimeWindow),
      st = none ∨ et = none → parse_time_window st et now = .ok w →
      w.start ≤ w.endT := by
  intro st et now w h hw
  cases st with
  | none =>
    cases et with
    | none =>
      simp only [parse_time_window, Except.ok.injEq] at hw
      subst hw
      show now - 3600 ≤ now
      omega
    | some e =>
      simp only [parse_time_window, Except.ok.injEq] at hw
      subst hw
      show now - 3600 ≤ now
      omega
  | some s =>
    have het : et = none := by
      rcases h with h | h
      · exact absurd h (by simp)
      · exact h
    subst het
    cases hs : strptimeYmdHMS s with
    | none => simp [parse_time_window, hs] at hw
    | some sd =>
      simp only [parse_time_window, hs, Except.ok.injEq] at hw
      subst hw
      show toSecs sd ≤ toSecs sd + 3600
      omega

/-- Witness for C4's amended theorem: a start-only call. -/
theorem parse_time_window_default_ordered_witness :
    (some "2025-01-02 00:00:00" : Option String) = none ∨ (none : Option String) = none
    ∧ parse_time_window (some "2025-01-02 00:00:00") none 0
        = .ok ⟨1735776000, 1735779600⟩
    ∧ (1735776000 : Int) ≤ 1735779600 := by
  right
  refine ⟨rfl, by rfl, ?_⟩
  exact parse_time_window_default_ordered (some "2025-01-02 00:00:00") none 0
    ⟨1735776000, 1735779600⟩ (Or.inr rfl) (by rfl)

/-- C3 counterexample: with an unparseable start time the call does raise
the invalid-timestamp error, but only after the directory walk — the
trace already contains the walk action when the error is raised, so no
I/O-free failure. -/
theorem analyze_hbase_logs_walks_before_error_cx :
    (analyze_hbase_logs [] "hbase_log" (some "not-a-time") none none none 0).2
        = .error ()
    ∧ IOAct.walkDir "hbase_log"
        ∈ (analyze_hbase_logs [] "hbase_log" (some "not-a-time") none none none 0).1 := by
  constructor
  · rfl
  · decide

/-- C3 (amended): a malformed supplied start time (or, with both bounds
supplied, a malformed end time) raises the invalid-timestamp error after
the directory walk and before any file is opened — the trace is exactly
the walk; a sole end time is never parsed and raises no error. -/
theorem analyze_hbase_logs_error_after_walk :
    (∀ (fs : FileSys) (logDir : String) (st et : Option String)
        (fa tn : Option (List String)) (now : Int),
      parse_time_window st et now = .error () →
      analyze_hbase_logs fs logDir st et fa tn now = ([IOAct.walkDir logDir], .error ()))
    ∧ (∀ (s : String) (et : Option String) (now : Int),
      parse_time_window (some s) et now = .error () ↔
        (strptimeYmdHMS s = none
          ∨ ∃ e, et = some e ∧ strptimeYmdHMS e = none))
    ∧ (∀ (et : Option String) (now : Int),
      parse_time_window none et now = .ok ⟨now - 3600, now⟩) := by
  refine ⟨?_, ?_, ?_⟩
  · intro fs logDir st et fa tn now h
    simp [analyze_hbase_logs, h]
  · intro s et now
    cases et with
    | none =>
      cases hs : strptimeYmdHMS s <;> simp [parse_time_window, hs]
    | some e =>
      cases hs : strptimeYmdHMS s with
      | none => simp [parse_time_window, hs]
      | some sd =>
        cases he : strptimeYmdHMS e <;> simp [parse_time_window, hs, he]
  · intro et now
    cases et <;> rfl

/-- Witness for C3's amended theorem: a concrete malformed start time. -/
theorem analyze_hbase_logs_error_after_walk_witness :
    parse_time_window (some "not-a-time") none 0 = .error ()
    ∧ analyze_hbase_logs [] "hbase_log" (some "not-a-time") none none none 0
        = ([IOAct.walkDir "hbase_log"], .error ()) :=
  ⟨by rfl,
   analyze_hbase_logs_error_after_walk.1 [] "hbase_log" (some "not-a-time") none
     none none 0 (by rfl)⟩

/-- C7: a trend is produced iff the pooled, time-sorted sample count is at
least 10; the first half is the first `⌊n/2⌋` values, the second half the
rest, and the direction compares the half means against the 1.1 / 0.9
factors. -/
theorem analyze_performance_trends_spec (hm : List (String × FilteredMetrics)) :
    ((analyze_performance_trends hm).isSome ↔ 10 ≤ (pooledSortedValues hm).length)
    ∧ ∀ tr, analyze_performance_trends hm = some tr →
        tr.first_half_avg
            = ratMean ((pooledSortedValues hm).take ((pooledSortedValues hm).length / 2))
        ∧ tr.second_half_avg
            = ratMean ((pooledSortedValues hm).drop ((pooledSortedValues hm).length / 2))
        ∧ tr.overall_trend
            = (if tr.first_half_avg * (11 / 10) < tr.second_half_avg then "increasing"
               else if tr.second_half_avg < tr.first_half_avg * (9 / 10) then "decreasing"
               else "stable") := by
  constructor
  · by_cases h : 10 ≤ (pooledSortedValues hm).length <;>
      simp [analyze_performance_trends, h]
  · intro tr htr
    by_cases h : 10 ≤ (pooledSortedValues hm).length
    · simp only [analyze_performance_trends, if_pos h, Option.some.injEq] at htr
      subst htr
      exact ⟨rfl, rfl, rfl⟩
    · simp [analyze_performance_trends, h] at htr

/-- Witness for C7: spec Scenario C — twelve ascending points whose second
half averages more than 10% above the first half produce an `increasing`
trend. -/
theorem analyze_performance_trends_spec_witness :
    10 ≤ (pooledSortedValues wTrendMetrics).length
    ∧ (analyze_performance_trends wTrendMetrics).isSome :=
  ⟨by decide, (analyze_performance_trends_spec wTrendMetrics).1.mpr (by decide)⟩

/-- C8: the error classifier realises the fixed priority chain
`timeout → memory → network → io → permission → configuration → data →
resource → FATAL → ERROR → WARN → Exception → unknown`, first match wins;
in particular a line containing both `timed out` and `Connection` is
classified `timeout`, not `network`. -/
theorem classify_error_priority_chain :
    (∀ line, classify_error line = firstMatchKind errorKindChain line)
    ∧ ∀ line, containsSubstr "timed out" line = true →
        containsSubstr "Connection" line = true →
        classify_error line = "timeout" := by
  constructor
  · intro line
    simp only [classify_error, firstMatchKind, errorKindChain, timeoutTrigger,
      memoryTrigger, networkTrigger, ioTrigger, permissionTrigger,
      configurationTrigger, dataTrigger, resourceTrigger, fatalTrigger,
      errorLiteralTrigger, warnTrigger, exceptionTrigger]
  · intro line h1 _h2
    simp [classify_error, h1]

/-- Witness for C8: a concrete line matching both the timeout and network
categories is classified `timeout`. -/
theorem classify_error_priority_chain_witness :
    containsSubstr "timed out" "Call timed out; Connection reset" = true
    ∧ containsSubstr "Connection" "Call timed out; Connection reset" = true
    ∧ classify_error "Call timed out; Connection reset" = "timeout" :=
  ⟨by decide, by decide,
   classify_error_priority_chain.2 "Call timed out; Connection reset"
     (by decide) (by decide)⟩

/-! ### Grouping lemmas for the handler statistics -/

theorem groupVals_addToGroup (g : List (String × List Nat)) (m : String) (v : Nat)
    (n : String) :
    groupVals (addToGroup g m v) n
      = if m = n then groupVals g n ++ [v] else groupVals g n := by
  induction g with
  | nil => by_cases h : m = n <;> simp [addToGroup, groupVals, h]
  | cons kv rest ih =>
    obtain ⟨k, vs⟩ := kv
    by_cases hk : k = m
    · subst hk
      by_cases hn : k = n
      · subst hn
        simp [addToGroup, groupVals]
      · simp [addToGroup, groupVals, hn]
    · simp only [addToGroup, if_neg hk]
      by_cases hn : k = n
      · subst hn
        have hm : ¬ m = k := fun h => hk h.symm
        simp [groupVals, hm]
      · simp only [groupVals, if_neg hn]
        exact ih

theorem groupVals_handler_foldl :
    ∀ (l : List Event) (g : List (String × List Nat)) (n : String),
      groupVals (l.foldl (fun g e => addToGroup g e.node (e.value.getD 0)) g) n
        = groupVals g n
            ++ (l.filter (fun e => e.node = n)).map (fun e => e.value.getD 0) := by
  intro l
  induction l with
  | nil => intro g n; simp
  | cons x xs ih =>
    intro g n
    simp only [List.foldl_cons, List.filter_cons]
    by_cases h : x.node = n
    · rw [ih, groupVals_addToGroup, if_pos h]
      simp [h, List.append_assoc]
    · rw [ih, groupVals_addToGroup, if_neg h]
      simp [h]

theorem groupVals_handlerStats (events : List Event) (node : String) :
    groupVals (handlerStats events) node = handlerValues events node := by
  unfold handlerStats handlerValues
  rw [groupVals_handler_foldl]
  simp only [groupVals, List.nil_append]
  rw [List.filter_filter]
  exact congrArg _ (List.filter_congr (fun e _ => Bool.and_comm _ _))

theorem mem_keys_addToGroup (m : String) (v : Nat) (n : String) :
    ∀ (g : List (String × List Nat)),
      n ∈ (addToGroup g m v).map Prod.fst ↔ n ∈ g.map Prod.fst ∨ n = m := by
  intro g
  induction g with
  | nil => simp [addToGroup]
  | cons kv rest ih =>
    obtain ⟨k, vs⟩ := kv
    by_cases hk : k = m
    · have hred : addToGroup ((k, vs) :: rest) m v = (k, vs ++ [v]) :: rest := by
        simp [addToGroup, hk]
      rw [hred]
      subst hk
      simp only [List.map_cons, List.mem_cons]
      tauto
    · have hred : addToGroup ((k, vs) :: rest) m v
          = (k, vs) :: addToGroup rest m v := by
        simp [addToGroup, hk]
      rw [hred]
      simp only [List.map_cons, List.mem_cons, ih]
      tauto

theorem addToGroup_keys_nodup (m : String) (v : Nat) :
    ∀ (g : List (String × List Nat)),
      (g.map Prod.fst).Nodup → ((addToGroup g m v).map Prod.fst).Nodup := by
  intro g
  induction g with
  | nil => intro _; simp [addToGroup]
  | cons kv rest ih =>
    obtain ⟨k, vs⟩ := kv
    intro hg
    simp only [List.map_cons, List.nodup_cons] at hg
    by_cases hk : k = m
    · have hred : addToGroup ((k, vs) :: rest) m v = (k, vs ++ [v]) :: rest := by
        simp [addToGroup, hk]
      rw [hred]
      simp only [List.map_cons, List.nodup_cons]
      exact hg
    · have hred : addToGroup ((k, vs) :: rest) m v
          = (k, vs) :: addToGroup rest m v := by
        simp [addToGroup, hk]
      rw [hred]
      simp only [List.map_cons, List.nodup_cons]
      refine ⟨?_, ih hg.2⟩
      intro hmem
      rcases (mem_keys_addToGroup m v k rest).mp hmem with h | h
      · exact hg.1 h
      · exact hk h

theorem handlerStats_keys_nodup (events : List Event) :
    ((handlerStats events).map Prod.fst).Nodup := by
  unfold handlerStats
  generalize events.filter (fun e => e.type = "handler_usage") = l
  have aux : ∀ (l : List Event) (g : List (String × List Nat)),
      (g.map Prod.fst).Nodup →
      ((l.foldl (fun g e => addToGroup g e.node (e.value.getD 0)) g).map Prod.fst).Nodup := by
    intro l
    induction l with
    | nil => intro g hg; simpa using hg
    | cons x xs ih =>
      intro g hg
      exact ih _ (addToGroup_keys_nodup x.node (x.value.getD 0) g hg)
  exact aux l [] (by simp)

theorem mem_groupVals_of_nodup :
    ∀ (g : List (String × List Nat)), (g.map Prod.fst).Nodup →
      ∀ n vs, (n, vs) ∈ g → groupVals g n = vs := by
  intro g
  induction g with
  | nil => intro _ n vs h; simp at h
  | cons kv rest ih =>
    obtain ⟨k, ws⟩ := kv
    intro hg n vs h
    simp only [List.map_cons, List.nodup_cons] at hg
    rcases List.mem_cons.mp h with h | h
    · have h1 : n = k := congrArg Prod.fst h
      have h2 : vs = ws := congrArg Prod.snd h
      subst h1
      subst h2
      simp [groupVals]
    · by_cases hk : k = n
      · subst hk
        exact absurd (List.mem_map.mpr ⟨(k, vs), h, rfl⟩) hg.1
      · simp only [groupVals, if_neg hk]
        exact ih hg.2 n vs h

theorem groupVals_self_mem :
    ∀ (g : List (String × List Nat)) (n : String),
      groupVals g n ≠ [] → (n, groupVals g n) ∈ g := by
  intro g
  induction g with
  | nil => intro n h; simp [groupVals] at h
  | cons kv rest ih =>
    obtain ⟨k, ws⟩ := kv
    intro n h
    by_cases hk : k = n
    · subst hk
      simp only [groupVals, if_pos rfl] at h ⊢
      exact List.mem_cons_self _ _
    · simp only [groupVals, if_neg hk] at h ⊢
      exact List.mem_cons_of_mem _ (ih n h)

/-! ### Shape of the log-anomaly list -/

theorem handlerAnomalies_eq (hs : List (String × List Nat)) :
    handlerAnomalies hs = hs.flatMap (fun nv =>
      if !nv.2.isEmpty && 58 ≤ listMaxNat nv.2 then
        [LogAnomaly.handler_saturation nv.1
          (if 60 ≤ listMaxNat nv.2 then "critical" else "high")
          (listMaxNat nv.2) (natMean nv.2)]
      else []) := by
  have aux : ∀ (l : List (String × List Nat)) (acc : List LogAnomaly),
      l.foldl (fun acc nv =>
        if !nv.2.isEmpty then
          (if 58 ≤ listMaxNat nv.2 then
            acc ++ [LogAnomaly.handler_saturation nv.1
              (if 60 ≤ listMaxNat nv.2 then "critical" else "high")
              (listMaxNat nv.2) (natMean nv.2)]
          else acc)
        else acc) acc
      = acc ++ l.flatMap (fun nv =>
          if !nv.2.isEmpty && 58 ≤ listMaxNat nv.2 then
            [LogAnomaly.handler_saturation nv.1
              (if 60 ≤ listMaxNat nv.2 then "critical" else "high")
              (listMaxNat nv.2) (natMean nv.2)]
          else []) := by
    intro l
    induction l with
    | nil => intro acc; simp
    | cons nv rest ih =>
      intro acc
      simp only [List.foldl_cons, List.flatMap_cons]
      by_cases h1 : !nv.2.isEmpty
      · by_cases h2 : 58 ≤ listMaxNat nv.2
        · rw [if_pos h1, if_pos h2, ih]
          simp [h1, h2, List.append_assoc]
        · rw [if_pos h1, if_neg h2, ih]
          simp [h1, h2]
      · rw [if_neg h1, ih]
        simp only [Bool.not_eq_true] at h1
        simp [h1]
  unfold handlerAnomalies
  exact aux hs []

theorem mem_errorRateAnomalies (ld : LogData) (a : LogAnomaly) :
    a ∈ errorRateAnomalies ld ↔
      ¬ ld.errors.isEmpty = true
      ∧ 5 < errRate ld
      ∧ a = LogAnomaly.high_error_rate "high" ld.errors.length (errRate ld) := by
  unfold errorRateAnomalies
  by_cases h1 : ld.errors.isEmpty
  · simp [h1]
  · by_cases h2 : (5 : ℚ) < errRate ld
    · simp [h1, h2]
    · simp [h1, h2]

theorem handler_saturation_not_in_errorRate (ld : LogData) (node sev : String)
    (mx : Nat) (avg : ℚ) :
    LogAnomaly.handler_saturation node sev mx avg ∉ errorRateAnomalies ld := by
  intro hmem
  rcases (mem_errorRateAnomalies ld _).mp hmem with ⟨-, -, heq⟩
  exact absurd heq (by simp)

theorem high_error_rate_not_in_handler (hs : List (String × List Nat))
    (sev : String) (cnt : Nat) (rate : ℚ) :
    LogAnomaly.high_error_rate sev cnt rate ∉ handlerAnomalies hs := by
  intro hmem
  rw [handlerAnomalies_eq] at hmem
  rcases List.mem_flatMap.mp hmem with ⟨nv, -, hcond⟩
  have h1 := List.mem_singleton.mp (mem_ite_nil hcond)
  exact absurd h1 (by simp)

/-- C1: for every node with at least one `handler_usage` event, a
`handler_saturation` anomaly for that node is emitted iff the maximum of
that node's handler values is ≥ 58; the anomaly carries that maximum and
the node's mean, and its severity is `critical` iff the maximum is ≥ 60,
else `high`; no such anomaly is emitted when the maximum is < 58. -/
theorem handler_saturation_rule (ld : LogData) (node : String)
    (hne : handlerValues ld.events node ≠ []) :
    ((∃ sev mx avg, LogAnomaly.handler_saturation node sev mx avg
        ∈ (analyze_parsed_logs ld).anomalies)
      ↔ 58 ≤ listMaxNat (handlerValues ld.events node))
    ∧ ∀ sev mx avg, LogAnomaly.handler_saturation node sev mx avg
        ∈ (analyze_parsed_logs ld).anomalies →
        mx = listMaxNat (handlerValues ld.events node)
        ∧ avg = natMean (handlerValues ld.events node)
        ∧ sev = (if 60 ≤ listMaxNat (handlerValues ld.events node)
                 then "critical" else "high") := by
  have hanom : (analyze_parsed_logs ld).anomalies
      = handlerAnomalies (handlerStats ld.events) ++ errorRateAnomalies ld := rfl
  have hgv : groupVals (handlerStats ld.events) node = handlerValues ld.events node :=
    groupVals_handlerStats ld.events node
  have hnd := handlerStats_keys_nodup ld.events
  have key : ∀ sev mx avg, LogAnomaly.handler_saturation node sev mx avg
      ∈ (analyze_parsed_logs ld).anomalies →
      58 ≤ listMaxNat (handlerValues ld.events node)
      ∧ mx = listMaxNat (handlerValues ld.events node)
      ∧ avg = natMean (handlerValues ld.events node)
      ∧ sev = (if 60 ≤ listMaxNat (handlerValues ld.events node)
               then "critical" else "high") := by
    intro sev mx avg hmem
    rw [hanom] at hmem
    rcases List.mem_append.mp hmem with h | h
    · rw [handlerAnomalies_eq] at h
      rcases List.mem_flatMap.mp h with ⟨nv, hnv, hcond⟩
      by_cases hc : (!nv.2.isEmpty && 58 ≤ listMaxNat nv.2) = true
      · have heq := List.mem_singleton.mp (mem_ite_nil hcond)
        simp only [LogAnomaly.handler_saturation.injEq] at heq
        obtain ⟨h1, h2, h3, h4⟩ := heq
        have hv : nv.2 = handlerValues ld.events node := by
          rw [← hgv, h1]
          exact (mem_groupVals_of_nodup _ hnd nv.1 nv.2 (by rwa [Prod.mk.eta])).symm
        rw [hv] at hc h2 h3 h4
        simp only [Bool.and_eq_true, decide_eq_true_eq] at hc
        exact ⟨hc.2, h3, h4, h2⟩
      · simp only [hc, if_false] at hcond
        simp at hcond
    · exact absurd h (handler_saturation_not_in_errorRate ld node sev mx avg)
  refine ⟨⟨fun ⟨sev, mx, avg, h⟩ => (key sev mx avg h).1, ?_⟩,
    fun sev mx avg h => (key sev mx avg h).2⟩
  intro h58
  have hmem : (node, handlerValues ld.events node) ∈ handlerStats ld.events := by
    have := groupVals_self_mem (handlerStats ld.events) node (by rwa [hgv])
    rwa [hgv] at this
  refine ⟨if 60 ≤ listMaxNat (handlerValues ld.events node) then "critical" else "high",
    listMaxNat (handlerValues ld.events node), natMean (handlerValues ld.events node), ?_⟩
  rw [hanom]
  apply List.mem_append_left
  rw [handlerAnomalies_eq]
  apply List.mem_flatMap.mpr
  refine ⟨(node, handlerValues ld.events node), hmem, ?_⟩
  have hc : (!(handlerValues ld.events node).isEmpty
      && 58 ≤ listMaxNat (handlerValues ld.events node)) = true := by
    simp only [Bool.and_eq_true, Bool.not_eq_true', decide_eq_true_eq]
    exact ⟨by simpa [List.isEmpty_iff] using hne, h58⟩
  rw [if_pos hc]
  exact List.mem_singleton_self _

/-- Witness for C1: a node with handler values 59 and 61 (spec Scenario A)
has at least one handler event and receives a saturation anomaly. -/
theorem handler_saturation_rule_witness :
    handlerValues wLogData.events "ip-10-0-0-1" ≠ []
    ∧ (∃ sev mx avg, LogAnomaly.handler_saturation "ip-10-0-0-1" sev mx avg
        ∈ (analyze_parsed_logs wLogData).anomalies) :=
  ⟨by decide,
   (handler_saturation_rule wLogData "ip-10-0-0-1" (by decide)).1.mpr (by decide)⟩

/-- C6: a `high_error_rate` anomaly of severity `high` is emitted iff
`total_entries > 0` and `100 × errors / total_entries > 5`, and it
carries the error count and that error rate as numeric evidence. -/
theorem high_error_rate_rule (ld : LogData) :
    ((∃ cnt rate, LogAnomaly.high_error_rate "high" cnt rate
        ∈ (analyze_parsed_logs ld).anomalies)
      ↔ (0 < ld.total_entries
          ∧ 5 < 100 * (ld.errors.length : ℚ) / (ld.total_entries : ℚ)))
    ∧ ∀ sev cnt rate, LogAnomaly.high_error_rate sev cnt rate
        ∈ (analyze_parsed_logs ld).anomalies →
        sev = "high" ∧ cnt = ld.errors.length
        ∧ rate = (ld.errors.length : ℚ) / (ld.total_entries : ℚ) * 100 := by
  have hanom : (analyze_parsed_logs ld).anomalies
      = handlerAnomalies (handlerStats ld.events) ++ errorRateAnomalies ld := rfl
  have hsh : ∀ sev cnt rate,
      LogAnomaly.high_error_rate sev cnt rate ∈ (analyze_parsed_logs ld).anomalies ↔
      LogAnomaly.high_error_rate sev cnt rate ∈ errorRateAnomalies ld := by
    intro sev cnt rate
    rw [hanom, List.mem_append]
    constructor
    · rintro (h | h)
      · exact absurd h (high_error_rate_not_in_handler _ sev cnt rate)
      · exact h
    · exact Or.inr
  have hconv : (¬ ld.errors.isEmpty = true ∧ 5 < errRate ld)
      ↔ (0 < ld.total_entries
          ∧ 5 < 100 * (ld.errors.length : ℚ) / (ld.total_entries : ℚ)) := by
    unfold errRate
    by_cases hT : 0 < ld.total_entries
    · rw [if_pos hT]
      constructor
      · rintro ⟨-, h⟩
        refine ⟨hT, ?_⟩
        rw [show (100 * (ld.errors.length : ℚ) / (ld.total_entries : ℚ))
            = (ld.errors.length : ℚ) / (ld.total_entries : ℚ) * 100 by ring]
        exact h
      · rintro ⟨-, h⟩
        refine ⟨?_, ?_⟩
        · intro hEmpty
          have hE : ld.errors.length = 0 := by
            simpa [List.isEmpty_iff] using hEmpty
          rw [hE] at h
          norm_num at h
        · rw [show ((ld.errors.length : ℚ) / (ld.total_entries : ℚ) * 100)
              = 100 * (ld.errors.length : ℚ) / (ld.total_entries : ℚ) by ring]
          exact h
    · rw [if_neg hT]
      constructor
      · rintro ⟨-, h⟩
        norm_num at h
      · rintro ⟨h, -⟩
        exact absurd h hT
  constructor
  · constructor
    · rintro ⟨cnt, rate, h⟩
      rcases (mem_errorRateAnomalies ld _).mp ((hsh _ _ _).mp h) with ⟨h1, h2, -⟩
      exact hconv.mp ⟨h1, h2⟩
    · intro h
      obtain ⟨h1, h2⟩ := hconv.mpr h
      exact ⟨ld.errors.length, errRate ld,
        (hsh _ _ _).mpr ((mem_errorRateAnomalies ld _).mpr ⟨h1, h2, rfl⟩)⟩
  · intro sev cnt rate h
    rcases (mem_errorRateAnomalies ld _).mp ((hsh _ _ _).mp h) with ⟨h1, h2, heq⟩
    simp only [LogAnomaly.high_error_rate.injEq] at heq
    obtain ⟨hs1, hs2, hs3⟩ := heq
    have hT : 0 < ld.total_entries := (hconv.mp ⟨h1, h2⟩).1
    refine ⟨hs1, hs2, ?_⟩
    rw [hs3]
    unfold errRate
    rw [if_pos hT]

/-- Witness for C6: spec Scenario B — ten errors among one hundred
entries give a 10% error rate and an emitted anomaly. -/
theorem high_error_rate_rule_witness :
    (0 < wLogData.total_entries
      ∧ 5 < 100 * (wLogData.errors.length : ℚ) / (wLogData.total_entries : ℚ))
    ∧ ∃ cnt rate, LogAnomaly.high_error_rate "high" cnt rate
        ∈ (analyze_parsed_logs wLogData).anomalies := by
  have h : 0 < wLogData.total_entries
      ∧ 5 < 100 * (wLogData.errors.length : ℚ) / (wLogData.total_entries : ℚ) := by
    constructor
    · decide
    · norm_num [wLogData]
  exact ⟨h, (high_error_rate_rule wLogData).1.mpr h⟩

/-! ### Metrics anomaly lemmas -/

theorem node_analysis_eq (hm : List (String × FilteredMetrics))
    (mt : Option (List String)) :
    (analyze_metrics_comprehensive hm mt).node_analysis
      = hm.filterMap (fun nv =>
          if nv.2.values.isEmpty then none else some (nv.1, nodeStatsOf nv.2)) := by
  have aux : ∀ (l : List (String × FilteredMetrics))
      (acc : List (String × NodeStats)),
      l.foldl (fun acc nv =>
        if nv.2.values.isEmpty then acc else acc ++ [(nv.1, nodeStatsOf nv.2)]) acc
        = acc ++ l.filterMap (fun nv =>
            if nv.2.values.isEmpty then none else some (nv.1, nodeStatsOf nv.2)) := by
    intro l
    induction l with
    | nil => intro acc; simp
    | cons nv rest ih =>
      intro acc
      simp only [List.foldl_cons, List.filterMap_cons]
      by_cases h : nv.2.values.isEmpty
      · rw [if_pos h, if_pos h, ih]
      · rw [if_neg h, if_neg h, ih]
        simp [List.append_assoc]
  exact aux hm []

theorem satCount_pos (fm : FilteredMetrics) :
    0 < (nodeStatsOf fm).saturation_count
      ↔ (fm.timestamps.zip fm.values).any (fun p => 58 ≤ p.2) = true := by
  unfold nodeStatsOf
  simp only [List.length_map, ← List.countP_eq_length_filter, List.countP_pos,
    List.any_eq_true]

theorem highCount_pos (fm : FilteredMetrics) :
    0 < (nodeStatsOf fm).high_usage_count
      ↔ (fm.timestamps.zip fm.values).any (fun p => 50 ≤ p.2) = true := by
  unfold nodeStatsOf
  simp only [List.length_map, ← List.countP_eq_length_filter, List.countP_pos,
    List.any_eq_true]
  constructor
  · rintro ⟨q, hq, hP⟩
    refine ⟨q.2, ?_, hP⟩
    have hmem := List.mem_map_of_mem Prod.snd hq
    rwa [List.enum_map_snd] at hmem
  · rintro ⟨p, hp, hP⟩
    rw [← List.enum_map_snd (fm.timestamps.zip fm.values)] at hp
    rcases List.mem_map.mp hp with ⟨q, hq, hsnd⟩
    exact ⟨q, hq, by rwa [hsnd]⟩

theorem values_empty_no_sat (fm : FilteredMetrics) (h : fm.values.isEmpty = true) :
    (fm.timestamps.zip fm.values).any (fun p => (58 : ℚ) ≤ p.2) = false
    ∧ (fm.timestamps.zip fm.values).any (fun p => (50 : ℚ) ≤ p.2) = false := by
  have hv : fm.values = [] := List.isEmpty_iff.mp h
  rw [hv]
  simp

theorem saturated_filter_len :
    ∀ (hm : List (String × FilteredMetrics)),
      ((hm.filterMap (fun nv =>
          if nv.2.values.isEmpty then none else some (nv.1, nodeStatsOf nv.2))).filter
        (fun ns => 0 < ns.2.saturation_count)).length
      = (hm.filter (fun nv =>
          (nv.2.timestamps.zip nv.2.values).any (fun p => 58 ≤ p.2))).length := by
  intro hm
  induction hm with
  | nil => rfl
  | cons nv rest ih =>
    simp only [List.isEmpty_iff] at ih
    by_cases hE : nv.2.values.isEmpty
    · have hE' : nv.2.values = [] := List.isEmpty_iff.mp hE
      have h0 := (values_empty_no_sat nv.2 hE).1
      simp [List.filterMap_cons, List.filter_cons, hE', h0, ih]
    · have hE' : ¬ nv.2.values = [] := by simpa [List.isEmpty_iff] using hE
      by_cases hp : (nv.2.timestamps.zip nv.2.values).any (fun p => (58 : ℚ) ≤ p.2) = true
      · have hq := (satCount_pos nv.2).mpr hp
        simp [List.filterMap_cons, List.filter_cons, hE', hp, hq, ih]
      · have hp' : (nv.2.timestamps.zip nv.2.values).any (fun p => (58 : ℚ) ≤ p.2) = false := by
          simpa using hp
        have hq : ¬ 0 < (nodeStatsOf nv.2).saturation_count :=
          fun h => hp ((satCount_pos nv.2).mp h)
        simp [List.filterMap_cons, List.filter_cons, hE', hp', hq, ih]

theorem high_usage_filter_len :
    ∀ (hm : List (String × FilteredMetrics)),
      ((hm.filterMap (fun nv =>
          if nv.2.values.isEmpty then none else some (nv.1, nodeStatsOf nv.2))).filter
        (fun ns => 0 < ns.2.high_usage_count)).length
      = (hm.filter (fun nv =>
          (nv.2.timestamps.zip nv.2.values).any (fun p => 50 ≤ p.2))).length := by
  intro hm
  induction hm with
  | nil => rfl
  | cons nv rest ih =>
    simp only [List.isEmpty_iff] at ih
    by_cases hE : nv.2.values.isEmpty
    · have hE' : nv.2.values = [] := List.isEmpty_iff.mp hE
      have h0 := (values_empty_no_sat nv.2 hE).2
      simp [List.filterMap_cons, List.filter_cons, hE', h0, ih]
    · have hE' : ¬ nv.2.values = [] := by simpa [List.isEmpty_iff] using hE
      by_cases hp : (nv.2.timestamps.zip nv.2.values).any (fun p => (50 : ℚ) ≤ p.2) = true
      · have hq := (highCount_pos nv.2).mpr hp
        simp [List.filterMap_cons, List.filter_cons, hE', hp, hq, ih]
      · have hp' : (nv.2.timestamps.zip nv.2.values).any (fun p => (50 : ℚ) ≤ p.2) = false := by
          simpa using hp
        have hq : ¬ 0 < (nodeStatsOf nv.2).high_usage_count :=
          fun h => hp ((highCount_pos nv.2).mp h)
        simp [List.filterMap_cons, List.filter_cons, hE', hp', hq, ih]

theorem analyzed_filter_len :
    ∀ (hm : List (String × FilteredMetrics)),
      (hm.filterMap (fun nv =>
          if nv.2.values.isEmpty then none else some (nv.1, nodeStatsOf nv.2))).length
      = (hm.filter (fun nv => !nv.2.values.isEmpty)).length := by
  intro hm
  induction hm with
  | nil => rfl
  | cons nv rest ih =>
    simp only [List.isEmpty_iff] at ih
    by_cases hE : nv.2.values.isEmpty
    · have hE' : nv.2.values = [] := List.isEmpty_iff.mp hE
      simp [List.filterMap_cons, List.filter_cons, hE', ih]
    · have hE' : ¬ nv.2.values = [] := by simpa [List.isEmpty_iff] using hE
      simp [List.filterMap_cons, List.filter_cons, hE', ih]

theorem saturated_count_eq (hm : List (String × FilteredMetrics))
    (mt : Option (List String)) :
    (analyze_metrics_comprehensive hm mt).performance_metrics.saturated_node_count
      = (saturatedInputNodes hm).length := by
  have h1 : (analyze_metrics_comprehensive hm mt).performance_metrics.saturated_node_count
      = (((analyze_metrics_comprehensive hm mt).node_analysis.filter
          (fun ns => 0 < ns.2.saturation_count)).map Prod.fst).length := rfl
  rw [h1, List.length_map, node_analysis_eq]
  unfold saturatedInputNodes
  rw [List.length_map]
  exact saturated_filter_len hm

theorem high_usage_count_eq (hm : List (String × FilteredMetrics))
    (mt : Option (List String)) :
    (analyze_metrics_comprehensive hm mt).performance_metrics.high_usage_node_count
      = (highUsageInputNodes hm).length := by
  have h1 : (analyze_metrics_comprehensive hm mt).performance_metrics.high_usage_node_count
      = (((analyze_metrics_comprehensive hm mt).node_analysis.filter
          (fun ns => 0 < ns.2.high_usage_count)).map Prod.fst).length := rfl
  rw [h1, List.length_map, node_analysis_eq]
  unfold highUsageInputNodes
  rw [List.length_map]
  exact high_usage_filter_len hm

theorem analyzed_count_eq (hm : List (String × FilteredMetrics))
    (mt : Option (List String)) :
    (analyze_metrics_comprehensive hm mt).node_analysis.length
      = (analyzedInputNodes hm).length := by
  rw [node_analysis_eq]
  unfold analyzedInputNodes
  rw [List.length_map]
  exact analyzed_filter_len hm

theorem perNodeMetricAnomalies_eq (na : List (String × NodeStats)) :
    perNodeMetricAnomalies na = na.flatMap (fun ns =>
      (if 0 < ns.2.saturation_count then
        [MetricAnomaly.handler_saturation ns.1
          (if 60 ≤ ns.2.max then "critical" else "high")
          ns.2.max ns.2.saturation_count
          (ns.2.saturation_points.map (fun sp => sp.timestamp))
          (ns.2.saturation_points.map (fun sp => sp.value))]
      else if 5 < ns.2.high_usage_count then
        [MetricAnomaly.high_handler_usage ns.1 "medium" ns.2.max ns.2.mean
          ns.2.high_usage_count
          (ns.2.high_usage_points.map (fun hp => hp.timestamp))
          (ns.2.high_usage_points.map (fun hp => hp.value))]
      else [])
      ++ (if 225 < ns.2.stdSq && 30 < ns.2.max then
            [MetricAnomaly.handler_volatility ns.1 "medium" ns.2.stdSq ns.2.max]
          else [])) := by
  have aux : ∀ (l : List (String × NodeStats)) (acc : List MetricAnomaly),
      l.foldl (fun acc ns =>
        let acc :=
          if 0 < ns.2.saturation_count then
            acc ++ [MetricAnomaly.handler_saturation ns.1
              (if 60 ≤ ns.2.max then "critical" else "high")
              ns.2.max ns.2.saturation_count
              (ns.2.saturation_points.map (fun sp => sp.timestamp))
              (ns.2.saturation_points.map (fun sp => sp.value))]
          else if 5 < ns.2.high_usage_count then
            acc ++ [MetricAnomaly.high_handler_usage ns.1 "medium" ns.2.max ns.2.mean
              ns.2.high_usage_count
              (ns.2.high_usage_points.map (fun hp => hp.timestamp))
              (ns.2.high_usage_points.map (fun hp => hp.value))]
          else acc
        if 225 < ns.2.stdSq && 30 < ns.2.max then
          acc ++ [MetricAnomaly.handler_volatility ns.1 "medium" ns.2.stdSq ns.2.max]
        else acc) acc
      = acc ++ l.flatMap (fun ns =>
          (if 0 < ns.2.saturation_count then
            [MetricAnomaly.handler_saturation ns.1
              (if 60 ≤ ns.2.max then "critical" else "high")
              ns.2.max ns.2.saturation_count
              (ns.2.saturation_points.map (fun sp => sp.timestamp))
              (ns.2.saturation_points.map (fun sp => sp.value))]
          else if 5 < ns.2.high_usage_count then
            [MetricAnomaly.high_handler_usage ns.1 "medium" ns.2.max ns.2.mean
              ns.2.high_usage_count
              (ns.2.high_usage_points.map (fun hp => hp.timestamp))
              (ns.2.high_usage_points.map (fun hp => hp.value))]
          else [])
          ++ (if 225 < ns.2.stdSq && 30 < ns.2.max then
                [MetricAnomaly.handler_volatility ns.1 "medium" ns.2.stdSq ns.2.max]
              else [])) := by
    intro l
    induction l with
    | nil => intro acc; simp
    | cons ns rest ih =>
      intro acc
      simp only [List.foldl_cons, List.flatMap_cons]
      rw [ih]
      by_cases h1 : 0 < ns.2.saturation_count
      · by_cases h3 : (225 < ns.2.stdSq && 30 < ns.2.max) = true
        · simp [h1, h3, List.append_assoc]
        · simp [h1, h3, List.append_assoc]
      · by_cases h2 : 5 < ns.2.high_usage_count
        · by_cases h3 : (225 < ns.2.stdSq && 30 < ns.2.max) = true
          · simp [h1, h2, h3, List.append_assoc]
          · simp [h1, h2, h3, List.append_assoc]
        · by_cases h3 : (225 < ns.2.stdSq && 30 < ns.2.max) = true
          · simp [h1, h2, h3, List.append_assoc]
          · simp [h1, h2, h3]
  unfold perNodeMetricAnomalies
  exact aux na []

theorem cluster_not_in_perNode (na : List (String × NodeStats)) :
    ∀ sev aff cnt,
      MetricAnomaly.cluster_saturation sev aff cnt ∉ perNodeMetricAnomalies na
      ∧ MetricAnomaly.cluster_high_usage sev aff cnt ∉ perNodeMetricAnomalies na := by
  intro sev aff cnt
  rw [perNodeMetricAnomalies_eq]
  constructor <;>
  · intro hmem
    rcases List.mem_flatMap.mp hmem with ⟨ns, -, hin⟩
    rcases List.mem_append.mp hin with h | h
    · by_cases h1 : 0 < ns.2.saturation_count
      · rw [if_pos h1] at h
        exact absurd (List.mem_singleton.mp h) (by simp)
      · rw [if_neg h1] at h
        by_cases h2 : 5 < ns.2.high_usage_count
        · rw [if_pos h2] at h
          exact absurd (List.mem_singleton.mp h) (by simp)
        · rw [if_neg h2] at h
          simp at h
    · exact absurd (List.mem_singleton.mp (mem_ite_nil h)) (by simp)

theorem ratThirty_lt (n c : Nat) :
    ((n : ℚ) * (3 / 10) < (c : ℚ)) ↔ 3 * n < 10 * c := by
  rw [← mul_div_assoc, div_lt_iff (by norm_num : (0 : ℚ) < 10)]
  constructor
  · intro h
    have hq : ((3 * n : Nat) : ℚ) < ((10 * c : Nat) : ℚ) := by push_cast; linarith
    exact_mod_cast hq
  · intro h
    have hq : ((3 * n : Nat) : ℚ) < ((10 * c : Nat) : ℚ) := by exact_mod_cast h
    push_cast at hq
    linarith

theorem clusterMetricAnomalies_eq (ma : MetricsAnalysis) :
    clusterMetricAnomalies ma
      = (if 1 < ma.performance_metrics.saturated_node_count then
          [MetricAnomaly.cluster_saturation "critical"
            ma.performance_metrics.saturated_nodes
            ma.performance_metrics.saturated_node_count]
        else if (ma.node_analysis.length : ℚ) * (3 / 10)
            < (ma.performance_metrics.high_usage_node_count : ℚ) then
          [MetricAnomaly.cluster_high_usage "high"
            ma.performance_metrics.high_usage_nodes
            ma.performance_metrics.high_usage_node_count]
        else []) := rfl

/-- C5: in the metrics pipeline, a `cluster_saturation` anomaly of severity
`critical` is emitted iff strictly more than one node has a saturation
point (a filtered value ≥ 58) — the node lists are duplicate-free under the
distinct-keys hypothesis, so this counts distinct nodes; otherwise a
`cluster_high_usage` anomaly of severity `high` is emitted iff the number
of high-usage nodes (a filtered value ≥ 50) exceeds 30 percent of the
analyzed nodes; the two cluster anomalies are never both emitted. -/
theorem detect_metrics_cluster_rules (hm : List (String × FilteredMetrics))
    (mt : Option (List String)) (hnd : (hm.map Prod.fst).Nodup) :
    ((∃ aff cnt, MetricAnomaly.cluster_saturation "critical" aff cnt
        ∈ detect_metrics_anomalies_comprehensive (analyze_metrics_comprehensive hm mt))
      ↔ 1 < (saturatedInputNodes hm).length)
    ∧ ((∃ aff cnt, MetricAnomaly.cluster_high_usage "high" aff cnt
        ∈ detect_metrics_anomalies_comprehensive (analyze_metrics_comprehensive hm mt))
      ↔ (saturatedInputNodes hm).length ≤ 1
        ∧ 3 * (analyzedInputNodes hm).length < 10 * (highUsageInputNodes hm).length)
    ∧ (¬ ∃ s1 a1 c1 s2 a2 c2,
        MetricAnomaly.cluster_saturation s1 a1 c1
          ∈ detect_metrics_anomalies_comprehensive (analyze_metrics_comprehensive hm mt)
        ∧ MetricAnomaly.cluster_high_usage s2 a2 c2
          ∈ detect_metrics_anomalies_comprehensive (analyze_metrics_comprehensive hm mt))
    ∧ (saturatedInputNodes hm).Nodup ∧ (highUsageInputNodes hm).Nodup
    ∧ (analyzedInputNodes hm).Nodup := by
  have hndS : (saturatedInputNodes hm).Nodup := by
    unfold saturatedInputNodes
    exact List.Nodup.sublist ((List.filter_sublist hm).map Prod.fst) hnd
  have hndH : (highUsageInputNodes hm).Nodup := by
    unfold highUsageInputNodes
    exact List.Nodup.sublist ((List.filter_sublist hm).map Prod.fst) hnd
  have hndA : (analyzedInputNodes hm).Nodup := by
    unfold analyzedInputNodes
    exact List.Nodup.sublist ((List.filter_sublist hm).map Prod.fst) hnd
  set ma := analyze_metrics_comprehensive hm mt with hma
  have hsat : ma.performance_metrics.saturated_node_count
      = (saturatedInputNodes hm).length := saturated_count_eq hm mt
  have hhigh : ma.performance_metrics.high_usage_node_count
      = (highUsageInputNodes hm).length := high_usage_count_eq hm mt
  have hana : ma.node_analysis.length = (analyzedInputNodes hm).length :=
    analyzed_count_eq hm mt
  have hmemS : ∀ s a c, (MetricAnomaly.cluster_saturation s a c
        ∈ detect_metrics_anomalies_comprehensive ma
      ↔ MetricAnomaly.cluster_saturation s a c ∈ clusterMetricAnomalies ma) := by
    intro s a c
    unfold detect_metrics_anomalies_comprehensive
    rw [List.mem_append]
    constructor
    · rintro (h | h)
      · exact absurd h ((cluster_not_in_perNode ma.node_analysis s a c).1)
      · exact h
    · exact Or.inr
  have hmemH : ∀ s a c, (MetricAnomaly.cluster_high_usage s a c
        ∈ detect_metrics_anomalies_comprehensive ma
      ↔ MetricAnomaly.cluster_high_usage s a c ∈ clusterMetricAnomalies ma) := by
    intro s a c
    unfold detect_metrics_anomalies_comprehensive
    rw [List.mem_append]
    constructor
    · rintro (h | h)
      · exact absurd h ((cluster_not_in_perNode ma.node_analysis s a c).2)
      · exact h
    · exact Or.inr
  by_cases h1 : 1 < (saturatedInputNodes hm).length
  · have hcl : clusterMetricAnomalies ma
        = [MetricAnomaly.cluster_saturation "critical"
            ma.performance_metrics.saturated_nodes
            ma.performance_metrics.saturated_node_count] := by
      rw [clusterMetricAnomalies_eq, if_pos (by rw [hsat]; exact h1)]
    refine ⟨?_, ?_, ?_, hndS, hndH, hndA⟩
    · constructor
      · intro _; exact h1
      · intro _
        exact ⟨ma.performance_metrics.saturated_nodes,
          ma.performance_metrics.saturated_node_count,
          (hmemS _ _ _).mpr (by rw [hcl]; exact List.mem_singleton_self _)⟩
    · constructor
      · rintro ⟨a, c, hmem⟩
        have hx := (hmemH _ _ _).mp hmem
        rw [hcl] at hx
        simp at hx
      · rintro ⟨hle, -⟩
        omega
    · rintro ⟨s1, a1, c1, s2, a2, c2, -, hmem2⟩
      have hx := (hmemH _ _ _).mp hmem2
      rw [hcl] at hx
      simp at hx
  · have hc1 : ¬ 1 < ma.performance_metrics.saturated_node_count := by
      rw [hsat]; exact h1
    by_cases h2 : 3 * (analyzedInputNodes hm).length
        < 10 * (highUsageInputNodes hm).length
    · have hcond : (ma.node_analysis.length : ℚ) * (3 / 10)
          < (ma.performance_metrics.high_usage_node_count : ℚ) := by
        rw [hana, hhigh, ratThirty_lt]
        exact h2
      have hcl : clusterMetricAnomalies ma
          = [MetricAnomaly.cluster_high_usage "high"
              ma.performance_metrics.high_usage_nodes
              ma.performance_metrics.high_usage_node_count] := by
        rw [clusterMetricAnomalies_eq, if_neg hc1, if_pos hcond]
      refine ⟨?_, ?_, ?_, hndS, hndH, hndA⟩
      · constructor
        · rintro ⟨a, c, hmem⟩
          have hx := (hmemS _ _ _).mp hmem
          rw [hcl] at hx
          simp at hx
        · intro h
          exact absurd h h1
      · constructor
        · intro _
          exact ⟨Nat.not_lt.mp h1, h2⟩
        · intro _
          exact ⟨ma.performance_metrics.high_usage_nodes,
            ma.performance_metrics.high_usage_node_count,
            (hmemH _ _ _).mpr (by rw [hcl]; exact List.mem_singleton_self _)⟩
      · rintro ⟨s1, a1, c1, s2, a2, c2, hmem1, -⟩
        have hx := (hmemS _ _ _).mp hmem1
        rw [hcl] at hx
        simp at hx
    · have hcond : ¬ (ma.node_analysis.length : ℚ) * (3 / 10)
          < (ma.performance_metrics.high_usage_node_count : ℚ) := by
        rw [hana, hhigh, ratThirty_lt]
        exact h2
      have hcl : clusterMetricAnomalies ma = [] := by
        rw [clusterMetricAnomalies_eq, if_neg hc1, if_neg hcond]
      refine ⟨?_, ?_, ?_, hndS, hndH, hndA⟩
      · constructor
        · rintro ⟨a, c, hmem⟩
          have hx := (hmemS _ _ _).mp hmem
          rw [hcl] at hx
          simp at hx
        · intro h
          exact absurd h h1
      · constructor
        · rintro ⟨a, c, hmem⟩
          have hx := (hmemH _ _ _).mp hmem
          rw [hcl] at hx
          simp at hx
        · rintro ⟨-, h⟩
          exact absurd h h2
      · rintro ⟨s1, a1, c1, s2, a2, c2, hmem1, -⟩
        have hx := (hmemS _ _ _).mp hmem1
        rw [hcl] at hx
        simp at hx

/-- Witness for C5: three distinct nodes, two of them carrying a
saturating value. -/
theorem detect_metrics_cluster_rules_witness :
    (wMetrics.map Prod.fst).Nodup
    ∧ (((∃ aff cnt, MetricAnomaly.cluster_saturation "critical" aff cnt
          ∈ detect_metrics_anomalies_comprehensive
              (analyze_metrics_comprehensive wMetrics none))
        ↔ 1 < (saturatedInputNodes wMetrics).length)
      ∧ ((∃ aff cnt, MetricAnomaly.cluster_high_usage "high" aff cnt
          ∈ detect_metrics_anomalies_comprehensive
              (analyze_metrics_comprehensive wMetrics none))
        ↔ (saturatedInputNodes wMetrics).length ≤ 1
          ∧ 3 * (analyzedInputNodes wMetrics).length
              < 10 * (highUsageInputNodes wMetrics).length)
      ∧ (¬ ∃ s1 a1 c1 s2 a2 c2,
          MetricAnomaly.cluster_saturation s1 a1 c1
            ∈ detect_metrics_anomalies_comprehensive
                (analyze_metrics_comprehensive wMetrics none)
          ∧ MetricAnomaly.cluster_high_usage s2 a2 c2
            ∈ detect_metrics_anomalies_comprehensive
                (analyze_metrics_comprehensive wMetrics none))
      ∧ (saturatedInputNodes wMetrics).Nodup
      ∧ (highUsageInputNodes wMetrics).Nodup
      ∧ (analyzedInputNodes wMetrics).Nodup) :=
  ⟨by decide, detect_metrics_cluster_rules wMetrics none (by decide)⟩

theorem assocCount_incAssoc (k ty : String) :
    ∀ (l : List (String × Nat)),
      assocCount (incAssoc l k) ty
        = assocCount l ty + (if k = ty then 1 else 0) := by
  intro l
  induction l with
  | nil =>
    by_cases h : k = ty <;> simp [incAssoc, assocCount, h]
  | cons p rest ih =>
    obtain ⟨q, n⟩ := p
    by_cases hk : q = k
    · subst hk
      by_cases hty : q = ty <;> simp [incAssoc, assocCount, hty]
    · by_cases hty : q = ty
      · subst hty
        have hkty : ¬ k = q := fun hx => hk hx.symm
        simp [incAssoc, assocCount, hk, hkty]
      · simp [incAssoc, assocCount, hk, hty, ih]

theorem assocCount_foldl_incAssoc (ty : String) (evs : List Event) :
    ∀ (acc : List (String × Nat)),
      assocCount (evs.foldl (fun a e => incAssoc a e.type) acc) ty
        = assocCount acc ty + evs.countP (fun e => e.type = ty) := by
  induction evs with
  | nil => intro acc; simp
  | cons e rest ih =>
    intro acc
    simp only [List.foldl_cons, List.countP_cons]
    rw [ih (incAssoc acc e.type), assocCount_incAssoc]
    by_cases h : e.type = ty <;> simp [h] <;> omega

theorem summarize_events_total (events : List Event) :
    (summarize_events events).total = events.length := by
  by_cases h : events.isEmpty
  · have hev : events = [] := List.isEmpty_iff.mp h
    subst hev
    simp [summarize_events]
  · simp [summarize_events, h]

theorem summarize_events_types_count (events : List Event) (ty : String) :
    assocCount (summarize_events events).types ty
      = events.countP (fun e => e.type = ty) := by
  by_cases h : events.isEmpty
  · have hev : events = [] := List.isEmpty_iff.mp h
    subst hev
    simp [summarize_events, assocCount]
  · have hT : (summarize_events events).types
        = events.foldl (fun a e => incAssoc a e.type) [] := by
      simp [summarize_events, h]
    rw [hT, assocCount_foldl_incAssoc]
    simp [assocCount]

theorem filter_relevant_files_none (files : FileSys) (w : TimeWindow) :
    filter_relevant_files files w none
      = files.filter (fun f => is_file_relevant_for_dates f.1 (extract_target_dates w)) :=
  rfl

theorem filter_relevant_files_some (files : FileSys) (w : TimeWindow)
    (tns : List String) :
    filter_relevant_files files w (some tns)
      = (if tns.isEmpty then
          files.filter (fun f => is_file_relevant_for_dates f.1 (extract_target_dates w))
        else (files.filter
            (fun f => is_file_relevant_for_dates f.1 (extract_target_dates w))).filter
          (fun f => tns.contains (extract_node_name f.1))) :=
  rfl

theorem filter_relevant_files_perm (w : TimeWindow) (tn : Option (List String))
    {files1 files2 : FileSys} (h : files1.Perm files2) :
    (filter_relevant_files files1 w tn).Perm (filter_relevant_files files2 w tn) := by
  cases tn with
  | none =>
    rw [filter_relevant_files_none, filter_relevant_files_none]
    exact h.filter _
  | some tns =>
    rw [filter_relevant_files_some, filter_relevant_files_some]
    by_cases he : tns.isEmpty
    · rw [if_pos he, if_pos he]
      exact h.filter _
    · rw [if_neg he, if_neg he]
      exact (h.filter _).filter _

theorem analyze_hbase_logs_ok (fs : FileSys) (logDir : String)
    (st et : Option String) (fa tn : Option (List String)) (now : Int)
    (w : TimeWindow) (hw : parse_time_window st et now = .ok w) :
    (analyze_hbase_logs fs logDir st et fa tn now).2
      = .ok {
          analysis_window := w,
          files_processed := (filter_relevant_files (discover_log_files fs) w tn).length,
          total_entries := (parse_log_files (filter_relevant_files
            (discover_log_files fs) w tn) w fa).total_entries,
          events_summary := (analyze_parsed_logs (parse_log_files (filter_relevant_files
            (discover_log_files fs) w tn) w fa)).events_summary,
          anomalies := (analyze_parsed_logs (parse_log_files (filter_relevant_files
            (discover_log_files fs) w tn) w fa)).anomalies,
          performance_issues := (analyze_parsed_logs (parse_log_files (filter_relevant_files
            (discover_log_files fs) w tn) w fa)).performance_issues,
          error_summary := (analyze_parsed_logs (parse_log_files (filter_relevant_files
            (discover_log_files fs) w tn) w fa)).error_summary,
          summary := (analyze_parsed_logs (parse_log_files (filter_relevant_files
            (discover_log_files fs) w tn) w fa)).summary } := by
  simp [analyze_hbase_logs, hw]

/-- C9 counterexample: the walked-file catalogs `cxFilesAB` and `cxFilesBA`
hold the same files (they are permutations of one another), yet the two
calls return different result documents — the event-type table follows the
enumeration order. -/
theorem analyze_hbase_logs_order_dependent_cx :
    cxFilesAB.Perm cxFilesBA
    ∧ (analyze_hbase_logs cxFilesAB "/logs" (some "2025-06-01 00:00:00")
        (some "2025-06-02 00:00:00") none none 0).2
      ≠ (analyze_hbase_logs cxFilesBA "/logs" (some "2025-06-01 00:00:00")
        (some "2025-06-02 00:00:00") none none 0).2 := by
  refine ⟨by decide, fun h => ?_⟩
  have h2 : (analyze_hbase_logs cxFilesAB "/logs" (some "2025-06-01 00:00:00")
        (some "2025-06-02 00:00:00") none none 0).2.toOption.map
        (fun r => r.events_summary.types)
      = (analyze_hbase_logs cxFilesBA "/logs" (some "2025-06-01 00:00:00")
        (some "2025-06-02 00:00:00") none none 0).2.toOption.map
        (fun r => r.events_summary.types) := by rw [h]
  exact absurd h2 (by decide)

/-- C9 (amended): the entry point is a pure function of its inputs, so two
calls with identical inputs and the same file enumeration order return
identical documents; under a permutation of the enumeration order the
calls agree on success versus failure, on the analysis window, the number
of files processed, the number of retained entries, the event-summary
total and every event type's count — but not on the full document, whose
event-type tables follow enumeration order. -/
theorem analyze_hbase_logs_enum_invariants (fs1 fs2 : FileSys) (logDir : String)
    (st et : Option String) (fa tn : Option (List String)) (now : Int)
    (hperm : fs1.Perm fs2) :
    ((analyze_hbase_logs fs1 logDir st et fa tn now).2 = .error ()
      ↔ (analyze_hbase_logs fs2 logDir st et fa tn now).2 = .error ())
    ∧ (analyze_hbase_logs fs1 logDir st et fa tn now).2.toOption.map
        (fun r => (r.analysis_window, r.files_processed, r.total_entries,
          r.events_summary.total))
      = (analyze_hbase_logs fs2 logDir st et fa tn now).2.toOption.map
        (fun r => (r.analysis_window, r.files_processed, r.total_entries,
          r.events_summary.total))
    ∧ ∀ ty, (analyze_hbase_logs fs1 logDir st et fa tn now).2.toOption.map
        (fun r => assocCount r.events_summary.types ty)
      = (analyze_hbase_logs fs2 logDir st et fa tn now).2.toOption.map
        (fun r => assocCount r.events_summary.types ty) := by
  cases hw : parse_time_window st et now with
  | error e =>
    have h1 : (analyze_hbase_logs fs1 logDir st et fa tn now).2 = .error e := by
      simp [analyze_hbase_logs, hw]
    have h2 : (analyze_hbase_logs fs2 logDir st et fa tn now).2 = .error e := by
      simp [analyze_hbase_logs, hw]
    cases e
    exact ⟨by simp [h1, h2], by simp [h1, h2], fun ty => by simp [h1, h2]⟩
  | ok w =>
    have h1 := analyze_hbase_logs_ok fs1 logDir st et fa tn now w hw
    have h2 := analyze_hbase_logs_ok fs2 logDir st et fa tn now w hw
    set rel1 := filter_relevant_files (discover_log_files fs1) w tn with hR1
    set rel2 := filter_relevant_files (discover_log_files fs2) w tn with hR2
    have hdisc : (discover_log_files fs1).Perm (discover_log_files fs2) := by
      unfold discover_log_files
      exact hperm.filter _
    have hrel : rel1.Perm rel2 := filter_relevant_files_perm w tn hdisc
    have hev : (parse_log_files rel1 w fa).events.Perm
        (parse_log_files rel2 w fa).events := by
      rw [(parse_log_files_spec rel1 w fa).1, (parse_log_files_spec rel2 w fa).1]
      exact hrel.flatMap_right _
    have hlen : rel1.length = rel2.length := hrel.length_eq
    have htot : (parse_log_files rel1 w fa).total_entries
        = (parse_log_files rel2 w fa).total_entries := by
      rw [(parse_log_files_spec rel1 w fa).2.2, (parse_log_files_spec rel2 w fa).2.2,
        (hrel.map (fileCounted w)).sum_eq]
    have e1 : (analyze_parsed_logs (parse_log_files rel1 w fa)).events_summary
        = summarize_events (parse_log_files rel1 w fa).events := rfl
    have e2 : (analyze_parsed_logs (parse_log_files rel2 w fa)).events_summary
        = summarize_events (parse_log_files rel2 w fa).events := rfl
    have hsum : (analyze_parsed_logs (parse_log_files rel1 w fa)).events_summary.total
        = (analyze_parsed_logs (parse_log_files rel2 w fa)).events_summary.total := by
      rw [e1, e2, summarize_events_total, summarize_events_total, hev.length_eq]
    have hcnt : ∀ ty,
        assocCount (analyze_parsed_logs
          (parse_log_files rel1 w fa)).events_summary.types ty
        = assocCount (analyze_parsed_logs
          (parse_log_files rel2 w fa)).events_summary.types ty := by
      intro ty
      rw [e1, e2, summarize_events_types_count, summarize_events_types_count,
        hev.countP_eq]
    refine ⟨?_, ?_, ?_⟩
    · rw [h1, h2]
      simp
    · rw [h1, h2]
      simp [Except.toOption, hlen, htot, hsum]
    · intro ty
      rw [h1, h2]
      simp [Except.toOption, hcnt ty]

/-- Witness for C9's amended theorem: the two-file catalog in both
enumeration orders. -/
theorem analyze_hbase_logs_enum_invariants_witness :
    cxFilesAB.Perm cxFilesBA
    ∧ (analyze_hbase_logs cxFilesAB "/logs" (some "2025-06-01 00:00:00")
        (some "2025-06-02 00:00:00") none none 0).2.toOption.map
        (fun r => (r.analysis_window, r.files_processed, r.total_entries,
          r.events_summary.total))
      = (analyze_hbase_logs cxFilesBA "/logs" (some "2025-06-01 00:00:00")
        (some "2025-06-02 00:00:00") none none 0).2.toOption.map
        (fun r => (r.analysis_window, r.files_processed, r.total_entries,
          r.events_summary.total))
    ∧ (analyze_hbase_logs cxFilesAB "/logs" (some "2025-06-01 00:00:00")
        (some "2025-06-02 00:00:00") none none 0).2.toOption.map
        (fun r => assocCount r.events_summary.types "compaction_start")
      = (analyze_hbase_logs cxFilesBA "/logs" (some "2025-06-01 00:00:00")
        (some "2025-06-02 00:00:00") none none 0).2.toOption.map
        (fun r => assocCount r.events_summary.types "compaction_start") :=
  ⟨by decide,
   (analyze_hbase_logs_enum_invariants cxFilesAB cxFilesBA "/logs"
      (some "2025-06-01 00:00:00") (some "2025-06-02 00:00:00") none none 0
      (by decide)).2.1,
   (analyze_hbase_logs_enum_invariants cxFilesAB cxFilesBA "/logs"
      (some "2025-06-01 00:00:00") (some "2025-06-02 00:00:00") none none 0
      (by decide)).2.2 "compaction_start"⟩

end HBase
